import Mathlib

/-!
Verification development for the rainfrog editing core.

Part A embeds the modal (vim-style) edit engine of src/vim.rs and the key
dispatch of src/components/editor.rs.  The editable text buffer is an external
collaborator (rat_text TextAreaState), so it is embedded as a trace of the
primitive operations the engine invokes on it (TAOp), together with a bundle
of read-only query functions (TAApi) standing for the collaborator's
observable state (cursor, selection, selected text, ...).

Part B embeds the scroll viewport engine of src/components/scrollable.rs:
cell buffers, the clamp (used bounding box) trimming, offset computation,
scrolling, the two-pass child measurement, and the compositing renderer.
-/

set_option autoImplicit false

/-- Key codes used by the engine; codes it never inspects are collapsed into
the catch-all constructor indexed by a number. -/
inductive KeyCode where
  | char (c : Char)
  | left
  | right
  | up
  | down
  | esc
  | enter
  | backspace
  | tab
  | pageDown
  | pageUp
  | other (n : Nat)
deriving DecidableEq, Repr

/-- The character carried by a char key code, with a default for the rest. -/
def KeyCode.charOf : KeyCode → Char
  | KeyCode.char c => c
  | _ => ' '

/-- Key modifier flags (crossterm KeyModifiers restricted to the flags the
source compares against). -/
structure KeyMods where
  shift : Bool
  control : Bool
  alt : Bool
deriving DecidableEq, Repr

def KeyMods.NONE : KeyMods := ⟨false, false, false⟩

def KeyMods.SHIFT : KeyMods := ⟨true, false, false⟩

def KeyMods.CONTROL : KeyMods := ⟨false, true, false⟩

def KeyMods.ALT : KeyMods := ⟨false, false, true⟩

/-- A key event: the fields of crossterm KeyEvent the source ever matches on. -/
structure KeyEvent where
  code : KeyCode
  modifiers : KeyMods
deriving DecidableEq, Repr

/-- Editing modes (src/vim.rs Mode). -/
inductive Mode where
  | normal
  | insert
  | visual
  | replace
  | operator (c : Char)
deriving DecidableEq, Repr

/-- Whether a mode is an operator-pending mode. -/
def Mode.isOperator : Mode → Bool
  | Mode.operator _ => true
  | _ => false

/-- Result of one vim transition (src/vim.rs Transition). -/
inductive Transition where
  | nop
  | mode (m : Mode)
  | pending (input : KeyEvent)
deriving DecidableEq, Repr

/-- Side-channel actions sent over the command channel (crate::action::Action,
restricted to the variants the embedded code emits). -/
inductive AppAction where
  | copyData (text : String)
  | query (text : String)
  | cycleFocusForwards
  | cycleFocusBackwards
  | quit
  | abortQuery
deriving DecidableEq, Repr

/-- Primitive operations the engine invokes on the external text area.  A run
of the engine is recorded as the list of operations applied, in order. -/
inductive TAOp where
  | moveLeft (n : Nat) (extend : Bool)
  | moveRight (n : Nat) (extend : Bool)
  | moveUp (n : Nat) (extend : Bool)
  | moveDown (n : Nat) (extend : Bool)
  | moveToNextWord (extend : Bool)
  | nextWordEnd (pos : Nat × Nat)
  | prevWordStart (pos : Nat × Nat)
  | wordStart (pos : Nat × Nat)
  | moveToLineStart (extend : Bool)
  | moveToLineEnd (extend : Bool)
  | moveToStart (extend : Bool)
  | moveToEnd (extend : Bool)
  | setSelection (a b : Nat × Nat)
  | deleteRange (sel : (Nat × Nat) × (Nat × Nat))
  | deleteNextChar
  | deletePrevChar
  | deletePrevWord
  | insertChar (c : Char)
  | insertStr (s : String)
  | insertNewline
  | insertTab
  | insertBacktab
  | undo
  | redo
  | copyToClip
  | cutToClip
  | scrollDown (n : Nat)
  | scrollUp (n : Nat)
deriving DecidableEq, Repr

/-- Read-only queries on the external text area, given as arbitrary functions
of the operation trace so far, plus the system clipboard read used by paste.
The engine never inspects their results beyond passing them along, so the
embedding is parametric in them. -/
structure TAApi where
  cursor : List TAOp → Nat × Nat
  selection : List TAOp → (Nat × Nat) × (Nat × Nat)
  selectedText : List TAOp → String
  hasSelection : List TAOp → Bool
  verticalPage : List TAOp → Nat
  text : List TAOp → String
  clipGet : Option String

/-- State of the vim emulation (src/vim.rs Vim); hasTx models whether the
command channel (command_tx) is registered. -/
structure Vim where
  mode : Mode
  pending : Option KeyEvent
  hasTx : Bool
deriving DecidableEq, Repr

/-- Vim::new: fresh state in the given mode, no pending key, no channel. -/
def Vim.new (m : Mode) : Vim := ⟨m, none, false⟩

/-- Vim::with_pending: same mode, buffered key, channel dropped (the caller
re-registers it right after). -/
def Vim.with_pending (v : Vim) (p : KeyEvent) : Vim := ⟨v.mode, some p, false⟩

/-- Vim::send_copy_action_with_text: emits CopyData on the channel when one is
registered. -/
def Vim.send_copy_action_with_text (v : Vim) (text : String) : List AppAction :=
  if v.hasTx then [AppAction.copyData text] else []

/- Conditions of the match arms of Vim::transition in the
Normal | Visual | Operator block, in source order. -/

abbrev armH (k : KeyEvent) : Prop :=
  k.code = KeyCode.char 'h' ∨ k.code = KeyCode.left

abbrev armJ (k : KeyEvent) : Prop :=
  k.code = KeyCode.char 'j' ∨ k.code = KeyCode.down

abbrev armK (k : KeyEvent) : Prop :=
  k.code = KeyCode.char 'k' ∨ k.code = KeyCode.up

abbrev armL (k : KeyEvent) : Prop :=
  k.code = KeyCode.char 'l' ∨ k.code = KeyCode.right

abbrev armW (k : KeyEvent) : Prop :=
  k.code = KeyCode.char 'w'

abbrev armEOp (v : Vim) (k : KeyEvent) : Prop :=
  k.code = KeyCode.char 'e' ∧ k.modifiers = KeyMods.NONE ∧ v.mode.isOperator = true

abbrev armE (k : KeyEvent) : Prop :=
  k.code = KeyCode.char 'e' ∧ k.modifiers = KeyMods.NONE

abbrev armB (k : KeyEvent) : Prop :=
  k.code = KeyCode.char 'b' ∧ k.modifiers = KeyMods.NONE

abbrev armCaret (k : KeyEvent) : Prop :=
  k.code = KeyCode.char '^'

abbrev armZero (k : KeyEvent) : Prop :=
  k.code = KeyCode.char '0'

abbrev armDollar (k : KeyEvent) : Prop :=
  k.code = KeyCode.char '$'

abbrev armShiftD (k : KeyEvent) : Prop :=
  k.code = KeyCode.char 'D'

abbrev armShiftC (k : KeyEvent) : Prop :=
  k.code = KeyCode.char 'C'

abbrev armP (k : KeyEvent) : Prop :=
  k.code = KeyCode.char 'p'

abbrev armU (k : KeyEvent) : Prop :=
  k.code = KeyCode.char 'u' ∧ k.modifiers = KeyMods.NONE

abbrev armRedo (k : KeyEvent) : Prop :=
  k.code = KeyCode.char 'r' ∧ k.modifiers = KeyMods.CONTROL

abbrev armR (k : KeyEvent) : Prop :=
  k.code = KeyCode.char 'r' ∧ k.modifiers = KeyMods.NONE

abbrev armX (k : KeyEvent) : Prop :=
  k.code = KeyCode.char 'x'

abbrev armShiftX (k : KeyEvent) : Prop :=
  k.code = KeyCode.char 'X'

abbrev armI (k : KeyEvent) : Prop :=
  k.code = KeyCode.char 'i'

abbrev armAWord (v : Vim) (k : KeyEvent) : Prop :=
  k.code = KeyCode.char 'a' ∧ k.modifiers = KeyMods.NONE ∧
    (v.mode = Mode.operator 'd' ∨ v.mode = Mode.operator 'y')

abbrev armA (k : KeyEvent) : Prop :=
  k.code = KeyCode.char 'a'

abbrev armShiftA (k : KeyEvent) : Prop :=
  k.code = KeyCode.char 'A'

abbrev armO (k : KeyEvent) : Prop :=
  k.code = KeyCode.char 'o'

abbrev armShiftO (k : KeyEvent) : Prop :=
  k.code = KeyCode.char 'O'

abbrev armShiftI (k : KeyEvent) : Prop :=
  k.code = KeyCode.char 'I'

abbrev armCtrlE (k : KeyEvent) : Prop :=
  k.code = KeyCode.char 'e' ∧ k.modifiers = KeyMods.CONTROL

abbrev armCtrlY (k : KeyEvent) : Prop :=
  k.code = KeyCode.char 'y' ∧ k.modifiers = KeyMods.CONTROL

abbrev armCtrlD (k : KeyEvent) : Prop :=
  k.code = KeyCode.char 'd' ∧ k.modifiers = KeyMods.CONTROL

abbrev armCtrlU (k : KeyEvent) : Prop :=
  k.code = KeyCode.char 'u' ∧ k.modifiers = KeyMods.CONTROL

abbrev armCtrlF (k : KeyEvent) : Prop :=
  (k.code = KeyCode.char 'f' ∧ k.modifiers = KeyMods.CONTROL) ∨ k.code = KeyCode.pageDown

abbrev armCtrlB (k : KeyEvent) : Prop :=
  (k.code = KeyCode.char 'b' ∧ k.modifiers = KeyMods.CONTROL) ∨ k.code = KeyCode.pageUp

abbrev armV (v : Vim) (k : KeyEvent) : Prop :=
  k.code = KeyCode.char 'v' ∧ k.modifiers = KeyMods.NONE ∧ v.mode = Mode.normal

abbrev armShiftV (v : Vim) (k : KeyEvent) : Prop :=
  k.code = KeyCode.char 'V' ∧ k.modifiers = KeyMods.NONE ∧ v.mode = Mode.normal

abbrev armVisualEsc (v : Vim) (k : KeyEvent) : Prop :=
  (k.code = KeyCode.esc ∨ (k.code = KeyCode.char 'c' ∧ k.modifiers = KeyMods.CONTROL) ∨
    (k.code = KeyCode.char 'v' ∧ k.modifiers = KeyMods.NONE)) ∧ v.mode = Mode.visual

abbrev armGG (v : Vim) (k : KeyEvent) : Prop :=
  k.code = KeyCode.char 'g' ∧ k.modifiers = KeyMods.NONE ∧
    v.pending = some ⟨KeyCode.char 'g', KeyMods.NONE⟩

abbrev armShiftG (k : KeyEvent) : Prop :=
  k.code = KeyCode.char 'G' ∧ k.modifiers = KeyMods.NONE

abbrev armOwnChar (v : Vim) (k : KeyEvent) : Prop :=
  k.code = KeyCode.char k.code.charOf ∧ k.modifiers = KeyMods.NONE ∧
    v.mode = Mode.operator k.code.charOf

abbrev armOpEntry (v : Vim) (k : KeyEvent) : Prop :=
  (k.code = KeyCode.char 'y' ∨ k.code = KeyCode.char 'd' ∨ k.code = KeyCode.char 'c') ∧
    k.modifiers = KeyMods.NONE ∧ v.mode = Mode.normal

abbrev armYVisual (v : Vim) (k : KeyEvent) : Prop :=
  k.code = KeyCode.char 'y' ∧ k.modifiers = KeyMods.NONE ∧ v.mode = Mode.visual

abbrev armDVisual (v : Vim) (k : KeyEvent) : Prop :=
  k.code = KeyCode.char 'd' ∧ k.modifiers = KeyMods.NONE ∧ v.mode = Mode.visual

abbrev armCVisual (v : Vim) (k : KeyEvent) : Prop :=
  k.code = KeyCode.char 'c' ∧ k.modifiers = KeyMods.NONE ∧ v.mode = Mode.visual

abbrev armShiftS (k : KeyEvent) : Prop :=
  k.code = KeyCode.char 'S' ∧ k.modifiers = KeyMods.NONE

abbrev armEsc (k : KeyEvent) : Prop :=
  k.code = KeyCode.esc

/-- Operator dispatch performed after a motion arm falls through
(src/vim.rs lines 355-373). -/
def Vim.afterMotion (api : TAApi) (v : Vim) (tr : List TAOp) :
    Transition × List TAOp × List AppAction :=
  match v.mode with
  | Mode.operator c =>
    if c = 'y' then
      (Transition.mode Mode.normal, tr ++ [TAOp.copyToClip],
        v.send_copy_action_with_text (api.selectedText tr))
    else if c = 'd' then
      (Transition.mode Mode.normal, tr ++ [TAOp.cutToClip],
        v.send_copy_action_with_text (api.selectedText tr))
    else if c = 'c' then
      (Transition.mode Mode.insert, tr ++ [TAOp.cutToClip],
        v.send_copy_action_with_text (api.selectedText tr))
    else (Transition.nop, tr, [])
  | _ => (Transition.nop, tr, [])

/-- The Normal | Visual | Operator block of Vim::transition, arm by arm in
source order.  Motion arms fall through to Vim.afterMotion; the rest return
directly. -/
def Vim.transNVO (api : TAApi) (v : Vim) (input : KeyEvent) (tr : List TAOp) :
    Transition × List TAOp × List AppAction :=
  let ext := decide (v.mode ≠ Mode.normal)
  if armH input then Vim.afterMotion api v (tr ++ [TAOp.moveLeft 1 ext])
  else if armJ input then Vim.afterMotion api v (tr ++ [TAOp.moveDown 1 ext])
  else if armK input then Vim.afterMotion api v (tr ++ [TAOp.moveUp 1 ext])
  else if armL input then Vim.afterMotion api v (tr ++ [TAOp.moveRight 1 ext])
  else if armW input then Vim.afterMotion api v (tr ++ [TAOp.moveToNextWord ext])
  else if armEOp v input then Vim.afterMotion api v (tr ++ [TAOp.moveToNextWord ext])
  else if armE input then Vim.afterMotion api v (tr ++ [TAOp.nextWordEnd (api.cursor tr)])
  else if armB input then Vim.afterMotion api v (tr ++ [TAOp.prevWordStart (api.cursor tr)])
  else if armCaret input then Vim.afterMotion api v (tr ++ [TAOp.moveToLineStart ext])
  else if armZero input then Vim.afterMotion api v (tr ++ [TAOp.moveToLineStart ext])
  else if armDollar input then Vim.afterMotion api v (tr ++ [TAOp.moveToLineEnd ext])
  else if armShiftD input then
    let tr1 := tr ++ [TAOp.moveToLineEnd true]
    let acts := v.send_copy_action_with_text (api.selectedText tr1)
    let tr2 := tr1 ++ [TAOp.deleteRange (api.selection tr1)]
    (Transition.mode Mode.normal,
      tr2 ++ [TAOp.setSelection (api.cursor tr2) (api.cursor tr2)], acts)
  else if armShiftC input then
    let tr1 := tr ++ [TAOp.moveToLineEnd true]
    let acts := v.send_copy_action_with_text (api.selectedText tr1)
    let tr2 := tr1 ++ [TAOp.deleteRange (api.selection tr1)]
    (Transition.mode Mode.insert,
      tr2 ++ [TAOp.setSelection (api.cursor tr2) (api.cursor tr2)], acts)
  else if armP input then
    let tr1 := tr ++ [TAOp.deleteRange (api.selection tr)]
    let tr2 := match api.clipGet with
      | some t => tr1 ++ [TAOp.insertStr t]
      | none => tr1
    (Transition.mode Mode.normal, tr2, [])
  else if armU input then (Transition.mode Mode.normal, tr ++ [TAOp.undo], [])
  else if armRedo input then (Transition.mode Mode.normal, tr ++ [TAOp.redo], [])
  else if armR input then (Transition.mode Mode.replace, tr, [])
  else if armX input then
    let tr1 := if api.hasSelection tr then tr else tr ++ [TAOp.moveRight 1 true]
    (Transition.mode Mode.normal, tr1 ++ [TAOp.cutToClip],
      v.send_copy_action_with_text (api.selectedText tr1))
  else if armShiftX input then
    let tr1 := if v.mode = Mode.visual then
        tr ++ [TAOp.moveToLineStart false, TAOp.moveToLineEnd true]
      else tr ++ [TAOp.moveLeft 1 true]
    (Transition.mode Mode.normal, tr1 ++ [TAOp.cutToClip],
      v.send_copy_action_with_text (api.selectedText tr1))
  else if armI input then
    (Transition.mode Mode.insert,
      tr ++ [TAOp.setSelection (api.cursor tr) (api.cursor tr)], [])
  else if armAWord v input then
    let tr1 := tr ++ [TAOp.setSelection (api.cursor tr) (api.cursor tr), TAOp.moveRight 1 false]
    (Transition.nop, tr1 ++ [TAOp.wordStart (api.cursor tr1)], [])
  else if armA input then
    (Transition.mode Mode.insert,
      tr ++ [TAOp.setSelection (api.cursor tr) (api.cursor tr), TAOp.moveRight 1 false], [])
  else if armShiftA input then
    (Transition.mode Mode.insert,
      tr ++ [TAOp.setSelection (api.cursor tr) (api.cursor tr), TAOp.moveToLineEnd false], [])
  else if armO input then
    (Transition.mode Mode.insert, tr ++ [TAOp.moveToLineEnd false, TAOp.insertNewline], [])
  else if armShiftO input then
    (Transition.mode Mode.insert,
      tr ++ [TAOp.moveToLineStart false, TAOp.insertNewline, TAOp.moveUp 1 false], [])
  else if armShiftI input then
    (Transition.mode Mode.insert,
      tr ++ [TAOp.setSelection (api.cursor tr) (api.cursor tr), TAOp.moveToLineStart false], [])
  else if armCtrlE input then Vim.afterMotion api v (tr ++ [TAOp.scrollDown 1])
  else if armCtrlY input then Vim.afterMotion api v (tr ++ [TAOp.scrollUp 1])
  else if armCtrlD input then Vim.afterMotion api v (tr ++ [TAOp.scrollDown (api.verticalPage tr / 2)])
  else if armCtrlU input then Vim.afterMotion api v (tr ++ [TAOp.scrollUp (api.verticalPage tr / 2)])
  else if armCtrlF input then Vim.afterMotion api v (tr ++ [TAOp.scrollDown (api.verticalPage tr)])
  else if armCtrlB input then Vim.afterMotion api v (tr ++ [TAOp.scrollUp (api.verticalPage tr)])
  else if armV v input then (Transition.mode Mode.visual, tr ++ [TAOp.moveRight 1 true], [])
  else if armShiftV v input then
    let tr1 := tr ++ [TAOp.moveToLineStart false]
    (Transition.mode Mode.visual,
      tr1 ++ [TAOp.setSelection (api.cursor tr1) (api.cursor tr1), TAOp.moveToLineEnd true], [])
  else if armVisualEsc v input then
    (Transition.mode Mode.normal,
      tr ++ [TAOp.setSelection (api.cursor tr) (api.cursor tr)], [])
  else if armGG v input then Vim.afterMotion api v (tr ++ [TAOp.moveToStart ext])
  else if armShiftG input then Vim.afterMotion api v (tr ++ [TAOp.moveToEnd ext])
  else if armOwnChar v input then
    let tr1 := tr ++ [TAOp.moveToLineStart false]
    Vim.afterMotion api v
      (tr1 ++ [TAOp.setSelection (api.cursor tr1) (api.cursor tr1), TAOp.moveToLineEnd true])
  else if armOpEntry v input then
    (Transition.mode (Mode.operator input.code.charOf), tr, [])
  else if armYVisual v input then
    if api.hasSelection tr then
      (Transition.mode Mode.normal, tr ++ [TAOp.copyToClip],
        v.send_copy_action_with_text (api.selectedText tr))
    else (Transition.mode Mode.normal, tr, [])
  else if armDVisual v input then
    if api.hasSelection tr then (Transition.mode Mode.normal, tr ++ [TAOp.cutToClip], [])
    else (Transition.mode Mode.normal, tr, [])
  else if armCVisual v input then
    if api.hasSelection tr then
      (Transition.mode Mode.insert, tr ++ [TAOp.cutToClip],
        v.send_copy_action_with_text (api.selectedText tr))
    else (Transition.mode Mode.insert, tr, [])
  else if armShiftS input then
    let tr1 := tr ++ [TAOp.moveToLineStart false]
    let tr2 := tr1 ++ [TAOp.setSelection (api.cursor tr1) (api.cursor tr1), TAOp.moveToLineEnd true]
    (Transition.mode Mode.insert, tr2 ++ [TAOp.cutToClip],
      v.send_copy_action_with_text (api.selectedText tr2))
  else if armEsc input then
    (Transition.mode Mode.normal,
      tr ++ [TAOp.setSelection (api.cursor tr) (api.cursor tr)], [])
  else (Transition.pending input, tr, [])

/-- The Replace block of Vim::transition. -/
def Vim.transReplace (input : KeyEvent) (tr : List TAOp) :
    Transition × List TAOp × List AppAction :=
  if input.code = KeyCode.esc ∨
      (input.code = KeyCode.char 'c' ∧ input.modifiers = KeyMods.CONTROL) then
    (Transition.mode Mode.normal, tr, [])
  else
    match input.code with
    | KeyCode.char c =>
      (Transition.mode Mode.normal, tr ++ [TAOp.deleteNextChar, TAOp.insertChar c], [])
    | KeyCode.enter =>
      (Transition.mode Mode.normal, tr ++ [TAOp.deleteNextChar, TAOp.insertChar '\n'], [])
    | _ => (Transition.mode Mode.normal, tr, [])

/-- The Insert block of Vim::transition. -/
def Vim.transInsert (api : TAApi) (input : KeyEvent) (tr : List TAOp) :
    Transition × List TAOp × List AppAction :=
  if input.code = KeyCode.esc ∨
      (input.code = KeyCode.char 'c' ∧ input.modifiers = KeyMods.CONTROL) then
    (Transition.mode Mode.normal, tr, [])
  else if input.code = KeyCode.backspace ∧ input.modifiers = KeyMods.NONE then
    (Transition.nop, tr ++ [TAOp.deletePrevChar], [])
  else if input.code = KeyCode.backspace ∧ input.modifiers = KeyMods.ALT then
    (Transition.nop, tr ++ [TAOp.deletePrevWord], [])
  else if input.code = KeyCode.tab ∧ input.modifiers = KeyMods.NONE then
    (Transition.nop, tr ++ [TAOp.insertTab], [])
  else if input.code = KeyCode.tab ∧ input.modifiers = KeyMods.SHIFT then
    (Transition.nop, tr ++ [TAOp.insertBacktab], [])
  else if input.modifiers = KeyMods.SHIFT then
    (Transition.nop,
      match input.code with
      | KeyCode.left => tr ++ [TAOp.prevWordStart (api.cursor tr)]
      | KeyCode.right => tr ++ [TAOp.nextWordEnd (api.cursor tr)]
      | KeyCode.up => tr ++ [TAOp.scrollUp (api.verticalPage tr)]
      | KeyCode.down => tr ++ [TAOp.scrollDown (api.verticalPage tr)]
      | _ => tr, [])
  else
    (Transition.nop,
      match input.code with
      | KeyCode.char c => tr ++ [TAOp.insertChar c]
      | KeyCode.enter => tr ++ [TAOp.insertChar '\n']
      | _ => tr, [])

/-- Vim::transition: dispatch on the current mode (the source handles
Normal, Visual and Operator in a single match arm). -/
def Vim.transition (api : TAApi) (v : Vim) (input : KeyEvent) (tr : List TAOp) :
    Transition × List TAOp × List AppAction :=
  match v.mode with
  | Mode.normal | Mode.visual | Mode.operator _ => Vim.transNVO api v input tr
  | Mode.replace => Vim.transReplace input tr
  | Mode.insert => Vim.transInsert api input tr

/-- A concrete text-area query bundle used to exercise the engine on closed
inputs. -/
def sampleApi : TAApi where
  cursor := fun _ => (0, 0)
  selection := fun _ => ((0, 0), (0, 0))
  selectedText := fun _ => "sel"
  hasSelection := fun _ => false
  verticalPage := fun _ => 4
  text := fun _ => "txt"
  clipGet := none

example :
    Vim.transition sampleApi ⟨Mode.operator 'y', none, true⟩ ⟨KeyCode.char 'h', KeyMods.NONE⟩ [] =
      (Transition.mode Mode.normal, [TAOp.moveLeft 1 true, TAOp.copyToClip],
        [AppAction.copyData "sel"]) := by
  decide

example :
    Vim.transition sampleApi ⟨Mode.normal, none, true⟩ ⟨KeyCode.char 'z', KeyMods.NONE⟩ [] =
      (Transition.pending ⟨KeyCode.char 'z', KeyMods.NONE⟩, [], []) := by
  decide

/-- State of the Editor component (src/components/editor.rs) restricted to the
parts Editor::transition_vim_state touches: the vim state and whether the
command channel (command_tx) is registered. -/
structure Editor where
  vim : Vim
  tx : Bool
deriving DecidableEq, Repr

/-- Editor::transition_vim_state: pre-dispatch of a key event before handing
it to Vim::transition, and the vim-state update rule on its result
(src/components/editor.rs lines 78-129).  queryTaskNone models
app_state.query_task.is_none(). -/
def Editor.transition_vim_state (api : TAApi) (e : Editor) (input : KeyEvent)
    (queryTaskNone : Bool) (tr : List TAOp) : Editor × List TAOp × List AppAction :=
  if input.code = KeyCode.enter ∧
      (input.modifiers = KeyMods.ALT ∨ input.modifiers = KeyMods.CONTROL) then
    if queryTaskNone ∧ e.tx = true then
      ({ e with vim := ⟨Mode.normal, none, e.tx⟩ }, tr, [AppAction.query (api.text tr)])
    else (e, tr, [])
  else if input.code = KeyCode.tab ∧ input.modifiers = KeyMods.NONE ∧
      e.vim.mode ≠ Mode.insert then
    (e, tr, if e.tx then [AppAction.cycleFocusForwards] else [])
  else if input.code = KeyCode.tab ∧ input.modifiers = KeyMods.SHIFT ∧
      e.vim.mode ≠ Mode.insert then
    (e, tr, if e.tx then [AppAction.cycleFocusBackwards] else [])
  else if input.code = KeyCode.char 'c' ∧ input.modifiers = KeyMods.CONTROL ∧
      e.vim.mode = Mode.normal then
    (e, tr, if e.tx then [AppAction.quit] else [])
  else if input.code = KeyCode.char 'q' ∧ e.vim.mode = Mode.normal then
    (e, tr, if e.tx then [AppAction.abortQuery] else [])
  else
    let r := Vim.transition api e.vim input tr
    let vim1 :=
      match r.1 with
      | Transition.mode m => if e.vim.mode ≠ m then Vim.new m else e.vim
      | Transition.nop => e.vim
      | Transition.pending i => e.vim.with_pending i
    -- register_action_handler(self.command_tx.clone()) restores the channel
    ({ vim := ⟨vim1.mode, vim1.pending, e.tx⟩, tx := e.tx }, r.2.1, r.2.2)

/- Part B: the scroll viewport engine (src/components/scrollable.rs). -/

/-- Saturating u16 addition. -/
def satAdd16 (a b : Nat) : Nat := min (a + b) 65535

/-- Wrapping u16 addition (release-mode overflow semantics). -/
def u16wAdd (a b : Nat) : Nat := (a + b) % 65536

/-- Wrapping u16 subtraction (release-mode overflow semantics). -/
def u16wSub (a b : Nat) : Nat := (a % 65536 + 65536 - b % 65536) % 65536

/-- A ratatui rectangle. -/
structure Rect where
  x : Nat
  y : Nat
  width : Nat
  height : Nat
deriving DecidableEq, Repr

/-- Rect::right, saturating. -/
def Rect.right (r : Rect) : Nat := satAdd16 r.x r.width

/-- Rect::bottom, saturating. -/
def Rect.bottom (r : Rect) : Nat := satAdd16 r.y r.height

/-- Rect::is_empty. -/
def Rect.isEmpty (r : Rect) : Bool := r.width == 0 || r.height == 0

/-- Rect::intersection. -/
def Rect.intersection (a b : Rect) : Rect :=
  let x1 := max a.x b.x
  let y1 := max a.y b.y
  let x2 := min a.right b.right
  let y2 := min a.bottom b.bottom
  ⟨x1, y1, x2 - x1, y2 - y1⟩

/-- A ratatui buffer cell, restricted to the fields the source reads or
writes (symbol, fg, bg, skip) plus one retained field (modifier) witnessing
that untouched cell state survives the copy. -/
structure Cell where
  symbol : String
  fg : Nat
  bg : Nat
  modifier : Nat
  skip : Bool
deriving DecidableEq, Repr

/-- The ratatui default cell: a blank symbol. -/
def defaultCell : Cell := ⟨" ", 0, 0, 0, false⟩

/-- A ratatui cell buffer: an area and its cells in row-major order. -/
structure Buffer where
  area : Rect
  content : List Cell
deriving DecidableEq, Repr

/-- Buffer::empty: default cells filling the area. -/
def Buffer.empty (area : Rect) : Buffer :=
  ⟨area, List.replicate (area.width * area.height) defaultCell⟩

/-- get_row (src/components/scrollable.rs lines 267-269): the row-th chunk of
width cells.  The source slice panics when it reaches past the end of the
content vector; call sites either stay in bounds by construction (clamp) or
model the panic explicitly (Renderer::render). -/
def get_row (content : List Cell) (row width : Nat) : List Cell :=
  (content.drop (row * width)).take width

/-- The cell of a buffer at column x of row y, as the source reads it:
get_row followed by indexing (a read past the content is the default blank
cell). -/
def Buffer.readCell (b : Buffer) (x y : Nat) : Cell :=
  (get_row b.content y b.area.width).getD x defaultCell

/-- The backward scan of clamp (src/components/scrollable.rs lines 209-220):
fold over rows and columns in reverse, recording y+1 into the used height and
x+1 into the used width for every cell whose symbol is not a blank space. -/
def clampScan (buf : Buffer) : Nat × Nat :=
  (List.range buf.area.height).reverse.foldl (fun st y =>
    (List.range buf.area.width).reverse.foldl (fun st2 x =>
      if (buf.readCell x y).symbol ≠ " " then
        (max st2.1 (y + 1), max st2.2 (x + 1))
      else st2) st) (0, 0)

/-- clamp (src/components/scrollable.rs lines 205-230): trim a buffer to its
used bounding box; the rebuild walks rows 0..used_height and columns
0..used_width of the original content. -/
def clamp (buf : Buffer) : Buffer :=
  let used_height := (clampScan buf).1
  let used_width := (clampScan buf).2
  ⟨⟨0, 0, used_width, used_height⟩,
    (List.range used_height).flatMap (fun y =>
      (List.range used_width).map (fun x => buf.readCell x y))⟩

/-- Legal offset maxima (src/components/scrollable.rs MaxOffsets). -/
structure MaxOffsets where
  max_x_offset : Nat
  max_y_offset : Nat
deriving DecidableEq, Repr

/-- Scroll directions. -/
inductive ScrollDirection where
  | left
  | right
  | up
  | down
deriving DecidableEq, Repr

/-- The Scrollable viewport state.  The decorative block is an external
ratatui value of an arbitrary type B; its two behaviours the source uses
(inner-area computation and border rendering) are passed as functions where
needed. -/
structure Scrollable (B : Type) where
  child_buffer : Buffer
  parent_area : Rect
  block : Option B
  x_offset : Nat
  y_offset : Nat
  max_offsets : MaxOffsets
  requested_height : Nat
  available_height : Nat

/-- Scrollable::new. -/
def Scrollable.new {B : Type} : Scrollable B :=
  ⟨Buffer.empty ⟨0, 0, 0, 0⟩, ⟨0, 0, 0, 0⟩, none, 0, 0, ⟨0, 0⟩, 0, 0⟩

/-- BlockExt::inner_if_some: the block's inner area, or the area itself when
there is no block. -/
def innerIfSome {B : Type} (innerF : B → Rect → Rect) (blk : Option B) (area : Rect) : Rect :=
  match blk with
  | some b => innerF b area
  | none => area

/-- Scrollable::get_max_offsets (src/components/scrollable.rs lines 74-87).
The source first renders the block into a discarded clone of the child
buffer, which has no observable effect and is omitted. -/
def Scrollable.get_max_offsets {B : Type} (innerF : B → Rect → Rect) (s : Scrollable B)
    (child_buffer : Buffer) (parent_area : Rect) (parent_block : Option B) : MaxOffsets :=
  let render_area := innerIfSome innerF parent_block parent_area
  if render_area.isEmpty then ⟨0, 0⟩
  else
    ⟨child_buffer.area.width - render_area.width,
      s.requested_height - render_area.height⟩

/-- Scrollable::get_requested_child_offset. -/
def Scrollable.get_requested_child_offset {B : Type} (s : Scrollable B) : Nat :=
  satAdd16 s.y_offset s.child_buffer.area.height - s.available_height

/-- Scrollable::scroll (src/components/scrollable.rs lines 93-104). -/
def Scrollable.scroll {B : Type} (s : Scrollable B) (d : ScrollDirection) : Scrollable B :=
  match d with
  | ScrollDirection.left => { s with x_offset := s.x_offset - 1 }
  | ScrollDirection.right =>
    { s with x_offset := min (satAdd16 s.x_offset 1) s.max_offsets.max_x_offset }
  | ScrollDirection.up => { s with y_offset := s.y_offset - 1 }
  | ScrollDirection.down =>
    { s with y_offset := min (satAdd16 s.y_offset 1) s.max_offsets.max_y_offset }

/-- Scrollable::reset_scroll. -/
def Scrollable.reset_scroll {B : Type} (s : Scrollable B) : Scrollable B :=
  { s with x_offset := 0, y_offset := 0 }

/-- The state effect of Scrollable::draw (src/components/scrollable.rs lines
161-202): store the parent area and recompute the offset maxima.  The rest of
draw renders the widget and the scrollbars into the frame and mutates no
Scrollable state. -/
def Scrollable.draw {B : Type} (innerF : B → Rect → Rect) (s : Scrollable B)
    (area : Rect) : Scrollable B :=
  { s with parent_area := area,
           max_offsets := Scrollable.get_max_offsets innerF s s.child_buffer area s.block }

/-- Scrollable::child (src/components/scrollable.rs lines 50-72): two-pass
auto-sizing measurement.  Returns none exactly where the source panics:
u16::MAX.saturating_div(needed_width) divides by zero when the trimmed wide
buffer has width 0. -/
def Scrollable.child {B : Type} (s : Scrollable B) (requested_width requested_height : Nat)
    (render_child : Rect → Buffer → Buffer) : Option (Scrollable B) :=
  let wide_buf0 := Buffer.empty ⟨0, 0, min (65535 / 10) requested_width, 10⟩
  let wide_buf := clamp (render_child wide_buf0.area wide_buf0)
  let needed_width := wide_buf.area.width
  if needed_width = 0 then none
  else
    let available_height := 65535 / needed_width
    let buf0 := Buffer.empty ⟨0, 0, needed_width, available_height⟩
    let buf := clamp (render_child buf0.area buf0)
    some { s with child_buffer := buf, available_height := available_height,
                  requested_height := requested_height }

/-- One destination-cell write of the compositing loop: buf.get_mut(x, y)
followed by set_symbol/set_fg/set_bg/set_skip.  Returns none where the source
panics (coordinates outside the destination buffer's area or index past its
content). -/
def setCellStyled (b : Buffer) (x y : Nat) (c : Cell) : Option Buffer :=
  if b.area.x ≤ x ∧ x < b.area.x + b.area.width ∧
      b.area.y ≤ y ∧ y < b.area.y + b.area.height then
    let i := (y - b.area.y) * b.area.width + (x - b.area.x)
    match b.content.get? i with
    | some old =>
      some { b with content :=
        b.content.set i ⟨c.symbol, c.fg, c.bg, old.modifier, c.skip⟩ }
    | none => none
  else none

/-- One iteration of the inner column loop of Renderer::render: look up the
source cell of the row at the scrolled column and write it into the
destination.  The row indexing panics (none) past the row's end. -/
def Renderer.copyCell {B : Type} (s : Scrollable B) (area1 : Rect) (row : List Cell)
    (y : Nat) (b : Buffer) (x : Nat) : Option Buffer :=
  match row.get? (u16wSub (u16wAdd x s.x_offset) area1.x) with
  | some cell => setCellStyled b x y cell
  | none => none

/-- One iteration of the row loop of Renderer::render: slice the child row at
the scrolled row index (none where the source slice panics past the content)
and walk the visible columns. -/
def Renderer.copyRow {B : Type} (s : Scrollable B) (area1 : Rect) (max_x : Nat)
    (b : Buffer) (y : Nat) : Option Buffer :=
  let content_y := u16wSub (u16wAdd y (s.get_requested_child_offset - s.y_offset)) area1.y
  if (content_y + 1) * s.child_buffer.area.width ≤ s.child_buffer.content.length then
    (List.range' area1.x (max_x - area1.x)).foldlM
      (Renderer.copyCell s area1
        (get_row s.child_buffer.content content_y s.child_buffer.area.width) y) b
  else none

/-- Widget::render for Renderer (src/components/scrollable.rs lines 242-264).
Returns none exactly where the source panics: the row slice reaching past the
child content, the row index past the row's length, or a destination write
outside the buffer. -/
def Renderer.render {B : Type} (innerF : B → Rect → Rect)
    (blockRef : B → Rect → Buffer → Buffer) (s : Scrollable B)
    (area : Rect) (buf : Buffer) : Option Buffer :=
  let buf1 := match s.block with
    | some b => blockRef b area buf
    | none => buf
  let render_area := innerIfSome innerF s.block area
  if render_area.isEmpty then some buf1
  else
    let area1 := render_area.intersection buf1.area
    let max_x := min (satAdd16 area1.x area1.width)
      (satAdd16 area1.x s.child_buffer.area.width)
    let max_y := min (satAdd16 area1.y area1.height)
      (satAdd16 area1.y s.child_buffer.area.height)
    (List.range' area1.y (max_y - area1.y)).foldlM
      (Renderer.copyRow s area1 max_x) buf1

/- Claim theorems. -/

/-- Keys whose Normal/Visual/Operator motion branch falls through to the
operator dispatch, as enumerated by claim C1: h/j/k/l, the arrow keys, w, e,
0, ^, $, g after a pending g, G, and the operator's own character. -/
abbrev c1Motion (v : Vim) (k : KeyEvent) (op : Char) : Prop :=
  (k.code = KeyCode.char 'h' ∨ k.code = KeyCode.left ∨
   k.code = KeyCode.char 'j' ∨ k.code = KeyCode.down ∨
   k.code = KeyCode.char 'k' ∨ k.code = KeyCode.up ∨
   k.code = KeyCode.char 'l' ∨ k.code = KeyCode.right ∨
   k.code = KeyCode.char 'w' ∨ k.code = KeyCode.char '0' ∨
   k.code = KeyCode.char '^' ∨ k.code = KeyCode.char '$') ∨
  (k.modifiers = KeyMods.NONE ∧
    (k.code = KeyCode.char 'e' ∨ k.code = KeyCode.char 'G' ∨ k.code = KeyCode.char op ∨
      (k.code = KeyCode.char 'g' ∧ v.pending = some ⟨KeyCode.char 'g', KeyMods.NONE⟩)))

/-- C1: in OperatorPending(op) mode, every motion key whose branch falls
through (h/j/k/l, arrows, w, e, 0, ^, $, g-then-g, G, the operator's own
character) triggers the pending-operator dispatch on the resulting selection:
y emits a copy action with the selected text, copies to the clip register and
returns Mode(Normal); d cuts to the clip register and returns Mode(Normal);
c cuts to the clip register and returns Mode(Insert). -/
theorem c1_operator_dispatch (api : TAApi) (v : Vim) (k : KeyEvent) (tr : List TAOp)
    (op : Char) (hmode : v.mode = Mode.operator op)
    (hop : op = 'y' ∨ op = 'd' ∨ op = 'c') (htx : v.hasTx = true)
    (hk : c1Motion v k op) :
    (op = 'y' → ∃ tr1, Vim.transition api v k tr =
      (Transition.mode Mode.normal, tr1 ++ [TAOp.copyToClip],
        [AppAction.copyData (api.selectedText tr1)])) ∧
    (op = 'd' → ∃ tr1, Vim.transition api v k tr =
      (Transition.mode Mode.normal, tr1 ++ [TAOp.cutToClip],
        [AppAction.copyData (api.selectedText tr1)])) ∧
    (op = 'c' → ∃ tr1, Vim.transition api v k tr =
      (Transition.mode Mode.insert, tr1 ++ [TAOp.cutToClip],
        [AppAction.copyData (api.selectedText tr1)])) := by
  obtain ⟨kc, km⟩ := k
  obtain ⟨mo, p, tx⟩ := v
  simp only at hmode htx hk
  subst hmode
  subst htx
  rcases hk with (rfl | rfl | rfl | rfl | rfl | rfl | rfl | rfl | rfl | rfl | rfl | rfl) |
    ⟨rfl, (rfl | rfl | rfl | ⟨rfl, hp⟩)⟩ <;>
    try subst hp
  all_goals rcases hop with rfl | rfl | rfl
  all_goals
    first
    | exact ⟨fun _ => ⟨_, rfl⟩, fun h => absurd h (by decide), fun h => absurd h (by decide)⟩
    | exact ⟨fun h => absurd h (by decide), fun _ => ⟨_, rfl⟩, fun h => absurd h (by decide)⟩
    | exact ⟨fun h => absurd h (by decide), fun h => absurd h (by decide), fun _ => ⟨_, rfl⟩⟩

/-- Witness for C1 at a concrete input: dw in OperatorPending(d), with a
control-modified w showing the arm matches any modifiers. -/
theorem c1_witness :
    ∃ tr1,
      Vim.transition sampleApi ⟨Mode.operator 'd', none, true⟩
          ⟨KeyCode.char 'w', KeyMods.CONTROL⟩ [] =
        (Transition.mode Mode.normal, tr1 ++ [TAOp.cutToClip],
          [AppAction.copyData (sampleApi.selectedText tr1)]) :=
  (c1_operator_dispatch sampleApi ⟨Mode.operator 'd', none, true⟩
      ⟨KeyCode.char 'w', KeyMods.CONTROL⟩ [] 'd' rfl (by decide) rfl (by decide)).2.1 rfl

/-- C10: in Normal mode, or in any OperatorPending mode (not only Visual),
the X key moves the cursor one cell left extending the selection, emits a
copy action with the selected text, cuts the selection to the clip register
and returns to Normal mode. -/
theorem c10_shift_x_normal_operator (api : TAApi) (v : Vim) (tr : List TAOp)
    (m : KeyMods) (op : Char)
    (hm : v.mode = Mode.normal ∨ v.mode = Mode.operator op) (htx : v.hasTx = true) :
    Vim.transition api v ⟨KeyCode.char 'X', m⟩ tr =
      (Transition.mode Mode.normal, (tr ++ [TAOp.moveLeft 1 true]) ++ [TAOp.cutToClip],
        [AppAction.copyData (api.selectedText (tr ++ [TAOp.moveLeft 1 true]))]) := by
  obtain ⟨mo, p, tx⟩ := v
  simp only at hm htx
  subst htx
  rcases hm with h | h <;> subst h <;> rfl

/-- Witness for C10 at a concrete input: X pressed in OperatorPending(y). -/
theorem c10_witness :
    Vim.transition sampleApi ⟨Mode.operator 'y', none, true⟩
        ⟨KeyCode.char 'X', KeyMods.SHIFT⟩ [] =
      (Transition.mode Mode.normal, ([] ++ [TAOp.moveLeft 1 true]) ++ [TAOp.cutToClip],
        [AppAction.copyData (sampleApi.selectedText ([] ++ [TAOp.moveLeft 1 true]))]) :=
  c10_shift_x_normal_operator sampleApi ⟨Mode.operator 'y', none, true⟩ []
    KeyMods.SHIFT 'y' (Or.inr rfl) rfl

/-- C4: get_max_offsets yields max_x_offset = max(0, content width minus the
parent inner width) and max_y_offset = max(0, requested height minus the
parent inner height), and (0, 0) when the parent inner area is empty. -/
theorem c4_get_max_offsets_formula {B : Type} (innerF : B → Rect → Rect)
    (s : Scrollable B) (child_buffer : Buffer) (parent_area : Rect)
    (parent_block : Option B) :
    ((innerIfSome innerF parent_block parent_area).isEmpty = true →
      Scrollable.get_max_offsets innerF s child_buffer parent_area parent_block = ⟨0, 0⟩) ∧
    ((innerIfSome innerF parent_block parent_area).isEmpty = false →
      ((Scrollable.get_max_offsets innerF s child_buffer parent_area parent_block).max_x_offset : ℤ) =
        max 0 ((child_buffer.area.width : ℤ) -
          ((innerIfSome innerF parent_block parent_area).width : ℤ)) ∧
      ((Scrollable.get_max_offsets innerF s child_buffer parent_area parent_block).max_y_offset : ℤ) =
        max 0 ((s.requested_height : ℤ) -
          ((innerIfSome innerF parent_block parent_area).height : ℤ))) := by
  constructor
  · intro h
    simp [Scrollable.get_max_offsets, h]
  · intro h
    simp only [Scrollable.get_max_offsets, h, Bool.false_eq_true, if_false]
    constructor <;> omega

/-- The trivial inner-area function used to instantiate block-free scenarios. -/
def innerUnit : Unit → Rect → Rect := fun _ r => r

/-- A Scrollable with requested logical height 3, as in the C4 scenario. -/
def sampleScrollable3 : Scrollable Unit :=
  { Scrollable.new with requested_height := 3 }

/-- Witness for C4 at the spec scenario: 10 by 3 content, requested height 3,
6 by 5 parent inner area, giving offsets (4, 0). -/
theorem c4_witness :
    (((Scrollable.get_max_offsets innerUnit sampleScrollable3
        (Buffer.empty ⟨0, 0, 10, 3⟩) ⟨0, 0, 6, 5⟩ none).max_x_offset : ℤ) =
      max 0 (((Buffer.empty ⟨0, 0, 10, 3⟩).area.width : ℤ) -
        ((innerIfSome innerUnit none ⟨0, 0, 6, 5⟩).width : ℤ))) ∧
    (((Scrollable.get_max_offsets innerUnit sampleScrollable3
        (Buffer.empty ⟨0, 0, 10, 3⟩) ⟨0, 0, 6, 5⟩ none).max_y_offset : ℤ) =
      max 0 ((sampleScrollable3.requested_height : ℤ) -
        ((innerIfSome innerUnit none ⟨0, 0, 6, 5⟩).height : ℤ))) ∧
    Scrollable.get_max_offsets innerUnit sampleScrollable3
      (Buffer.empty ⟨0, 0, 10, 3⟩) ⟨0, 0, 6, 5⟩ none = ⟨4, 0⟩ :=
  ⟨((c4_get_max_offsets_formula innerUnit sampleScrollable3
      (Buffer.empty ⟨0, 0, 10, 3⟩) ⟨0, 0, 6, 5⟩ none).2 rfl).1,
   ((c4_get_max_offsets_formula innerUnit sampleScrollable3
      (Buffer.empty ⟨0, 0, 10, 3⟩) ⟨0, 0, 6, 5⟩ none).2 rfl).2,
   by decide⟩

/-- Scrolling never changes the offset maxima. -/
theorem scroll_max_offsets {B : Type} (s : Scrollable B) (d : ScrollDirection) :
    (s.scroll d).max_offsets = s.max_offsets := by
  cases d <;> rfl

/-- One scroll step keeps both offsets at or below their maxima. -/
theorem scroll_step_le {B : Type} (s : Scrollable B) (d : ScrollDirection)
    (hx : s.x_offset ≤ s.max_offsets.max_x_offset)
    (hy : s.y_offset ≤ s.max_offsets.max_y_offset) :
    (s.scroll d).x_offset ≤ (s.scroll d).max_offsets.max_x_offset ∧
    (s.scroll d).y_offset ≤ (s.scroll d).max_offsets.max_y_offset := by
  cases d <;> simp [Scrollable.scroll, satAdd16] <;> omega

/-- Repeated scroll-right advances the x offset by one per step, clamped at
the stored maximum. -/
theorem scroll_right_iterate {B : Type} (m : Nat) :
    ∀ (n : Nat) (s : Scrollable B), s.max_offsets.max_x_offset = m → m ≤ 65535 →
      s.x_offset ≤ m →
      ((fun t => Scrollable.scroll t ScrollDirection.right)^[n] s).x_offset =
        min (s.x_offset + n) m := by
  intro n
  induction n with
  | zero => intro s hm hle hx; simp; omega
  | succ n ih =>
    intro s hm hle hx
    rw [Function.iterate_succ_apply]
    have hstep : (s.scroll ScrollDirection.right).x_offset = min (s.x_offset + 1) m := by
      simp [Scrollable.scroll, satAdd16, hm]
      omega
    have hmax := scroll_max_offsets s ScrollDirection.right
    have := ih (s.scroll ScrollDirection.right) (by rw [hmax, hm]) hle
      (by rw [hstep, hmax, hm] at *; omega)
    rw [this, hstep]
    omega

/-- C6: from any state with offsets inside [0, max] per axis, every sequence
of scroll operations keeps each offset within [0, max] for its axis and never
wraps; in particular scrolling right d+5 times from x_offset 0 with maximum d
yields exactly d. -/
theorem c6_scroll_saturates {B : Type} :
    (∀ (s : Scrollable B) (dirs : List ScrollDirection),
      s.x_offset ≤ s.max_offsets.max_x_offset →
      s.y_offset ≤ s.max_offsets.max_y_offset →
      (dirs.foldl Scrollable.scroll s).x_offset ≤
        (dirs.foldl Scrollable.scroll s).max_offsets.max_x_offset ∧
      (dirs.foldl Scrollable.scroll s).y_offset ≤
        (dirs.foldl Scrollable.scroll s).max_offsets.max_y_offset) ∧
    (∀ (s : Scrollable B) (d : Nat),
      s.x_offset = 0 → s.max_offsets.max_x_offset = d → d ≤ 65535 →
      ((fun t => Scrollable.scroll t ScrollDirection.right)^[d + 5] s).x_offset = d) := by
  constructor
  · intro s dirs
    induction dirs generalizing s with
    | nil => exact fun hx hy => ⟨hx, hy⟩
    | cons d rest ih =>
      intro hx hy
      have h := scroll_step_le s d hx hy
      exact ih (s.scroll d) h.1 h.2
  · intro s d hx hm hle
    rw [scroll_right_iterate d (d + 5) s hm hle (by omega), hx]
    omega

/-- Witness for C6 at concrete inputs: a mixed scroll sequence stays in
range, and seven scroll-rights against maximum 2 stop at 2. -/
theorem c6_witness :
    (([ScrollDirection.right, ScrollDirection.down, ScrollDirection.left,
        ScrollDirection.right].foldl Scrollable.scroll
        ({ Scrollable.new with max_offsets := ⟨2, 3⟩, x_offset := 1, y_offset := 2 } :
          Scrollable Unit)).x_offset ≤
      ([ScrollDirection.right, ScrollDirection.down, ScrollDirection.left,
        ScrollDirection.right].foldl Scrollable.scroll
        ({ Scrollable.new with max_offsets := ⟨2, 3⟩, x_offset := 1, y_offset := 2 } :
          Scrollable Unit)).max_offsets.max_x_offset ∧
      ([ScrollDirection.right, ScrollDirection.down, ScrollDirection.left,
        ScrollDirection.right].foldl Scrollable.scroll
        ({ Scrollable.new with max_offsets := ⟨2, 3⟩, x_offset := 1, y_offset := 2 } :
          Scrollable Unit)).y_offset ≤
      ([ScrollDirection.right, ScrollDirection.down, ScrollDirection.left,
        ScrollDirection.right].foldl Scrollable.scroll
        ({ Scrollable.new with max_offsets := ⟨2, 3⟩, x_offset := 1, y_offset := 2 } :
          Scrollable Unit)).max_offsets.max_y_offset) ∧
    ((fun t => Scrollable.scroll t ScrollDirection.right)^[2 + 5]
      ({ Scrollable.new with max_offsets := ⟨2, 3⟩ } : Scrollable Unit)).x_offset = 2 :=
  ⟨(c6_scroll_saturates (B := Unit)).1 _ _ (by decide) (by decide),
   (c6_scroll_saturates (B := Unit)).2 _ 2 rfl rfl (by decide)⟩

/-- Keys that reach the fallback branch of Editor::transition_vim_state, i.e.
are not intercepted as query-submit, focus-cycling, quit or abort keys. -/
abbrev editorFallback (e : Editor) (k : KeyEvent) : Prop :=
  ¬(k.code = KeyCode.enter ∧
      (k.modifiers = KeyMods.ALT ∨ k.modifiers = KeyMods.CONTROL)) ∧
  ¬(k.code = KeyCode.tab ∧ k.modifiers = KeyMods.NONE ∧ e.vim.mode ≠ Mode.insert) ∧
  ¬(k.code = KeyCode.tab ∧ k.modifiers = KeyMods.SHIFT ∧ e.vim.mode ≠ Mode.insert) ∧
  ¬(k.code = KeyCode.char 'c' ∧ k.modifiers = KeyMods.CONTROL ∧ e.vim.mode = Mode.normal) ∧
  ¬(k.code = KeyCode.char 'q' ∧ e.vim.mode = Mode.normal)

/-- C2 counterexample: with a pending g buffered in Normal mode, processing h
(a key that is not g) leaves pending = some g rather than clearing it: the
motion is consumed with Transition::Nop and the old vim state, including its
pending key, is kept. -/
theorem c2_counterexample :
    (Editor.transition_vim_state sampleApi
        ⟨⟨Mode.normal, some ⟨KeyCode.char 'g', KeyMods.NONE⟩, true⟩, true⟩
        ⟨KeyCode.char 'h', KeyMods.NONE⟩ true []).1.vim.pending =
      some ⟨KeyCode.char 'g', KeyMods.NONE⟩ := by
  decide

/-- C2 amended: the pending key is cleared only when the transition returns a
new Pending key (which replaces it) or a mode change (which rebuilds the vim
state); on Transition::Nop and on a same-mode Transition::Mode the pending
key survives the step, so g followed by a motion like h followed by g still
completes the gg jump to the buffer start. -/
theorem c2_pending_survival (api : TAApi) (e : Editor) (input : KeyEvent) (q : Bool)
    (tr : List TAOp) (hfb : editorFallback e input) :
    ((Editor.transition_vim_state api e input q tr).1.vim.pending =
      match (Vim.transition api e.vim input tr).1 with
      | Transition.pending i => some i
      | Transition.mode m => if e.vim.mode = m then e.vim.pending else none
      | Transition.nop => e.vim.pending) ∧
    ((Editor.transition_vim_state api
        (Editor.transition_vim_state api
          ⟨⟨Mode.normal, some ⟨KeyCode.char 'g', KeyMods.NONE⟩, true⟩, true⟩
          ⟨KeyCode.char 'h', KeyMods.NONE⟩ q tr).1
        ⟨KeyCode.char 'g', KeyMods.NONE⟩ q
        (Editor.transition_vim_state api
          ⟨⟨Mode.normal, some ⟨KeyCode.char 'g', KeyMods.NONE⟩, true⟩, true⟩
          ⟨KeyCode.char 'h', KeyMods.NONE⟩ q tr).2.1).2.1 =
      (tr ++ [TAOp.moveLeft 1 false]) ++ [TAOp.moveToStart false]) := by
  constructor
  · obtain ⟨h1, h2, h3, h4, h5⟩ := hfb
    simp only [Editor.transition_vim_state, if_neg h1, if_neg h2, if_neg h3, if_neg h4,
      if_neg h5]
    rcases hr : (Vim.transition api e.vim input tr).1 with _ | m | i
    · simp [hr]
    · simp only [hr]
      by_cases hm : e.vim.mode = m
      · simp [hm]
      · simp [hm, Vim.new]
    · simp [hr, Vim.with_pending]
  · rfl

/-- Witness for C2's amended theorem at the counterexample input. -/
theorem c2_witness :
    ((Editor.transition_vim_state sampleApi
        ⟨⟨Mode.normal, some ⟨KeyCode.char 'g', KeyMods.NONE⟩, true⟩, true⟩
        ⟨KeyCode.char 'h', KeyMods.NONE⟩ true []).1.vim.pending =
      match (Vim.transition sampleApi
          (⟨⟨Mode.normal, some ⟨KeyCode.char 'g', KeyMods.NONE⟩, true⟩, true⟩ : Editor).vim
          ⟨KeyCode.char 'h', KeyMods.NONE⟩ []).1 with
      | Transition.pending i => some i
      | Transition.mode m =>
        if (⟨⟨Mode.normal, some ⟨KeyCode.char 'g', KeyMods.NONE⟩, true⟩, true⟩ :
            Editor).vim.mode = m then
          (⟨⟨Mode.normal, some ⟨KeyCode.char 'g', KeyMods.NONE⟩, true⟩, true⟩ :
            Editor).vim.pending
        else none
      | Transition.nop =>
        (⟨⟨Mode.normal, some ⟨KeyCode.char 'g', KeyMods.NONE⟩, true⟩, true⟩ :
          Editor).vim.pending) ∧
    ((Editor.transition_vim_state sampleApi
        (Editor.transition_vim_state sampleApi
          ⟨⟨Mode.normal, some ⟨KeyCode.char 'g', KeyMods.NONE⟩, true⟩, true⟩
          ⟨KeyCode.char 'h', KeyMods.NONE⟩ true []).1
        ⟨KeyCode.char 'g', KeyMods.NONE⟩ true
        (Editor.transition_vim_state sampleApi
          ⟨⟨Mode.normal, some ⟨KeyCode.char 'g', KeyMods.NONE⟩, true⟩, true⟩
          ⟨KeyCode.char 'h', KeyMods.NONE⟩ true []).2.1).2.1 =
      ([] ++ [TAOp.moveLeft 1 false]) ++ [TAOp.moveToStart false]) :=
  c2_pending_survival sampleApi
    ⟨⟨Mode.normal, some ⟨KeyCode.char 'g', KeyMods.NONE⟩, true⟩, true⟩
    ⟨KeyCode.char 'h', KeyMods.NONE⟩ true [] (by decide)

/-- A Scrollable whose stored x offset is stale: larger than any offset the
current 1-wide content allows. -/
def staleScrollable : Scrollable Unit :=
  { Scrollable.new with child_buffer := Buffer.empty ⟨0, 0, 1, 1⟩, x_offset := 5 }

/-- C5 counterexample: drawing 1-wide content into a 10 by 5 parent with a
stale x offset of 5 recomputes max_x_offset = 0 but leaves x_offset = 5: the
persisted offsets are not re-clamped on draw. -/
theorem c5_counterexample :
    (Scrollable.draw innerUnit staleScrollable ⟨0, 0, 10, 5⟩).x_offset = 5 ∧
    (Scrollable.draw innerUnit staleScrollable ⟨0, 0, 10, 5⟩).max_offsets.max_x_offset = 0 ∧
    ¬((Scrollable.draw innerUnit staleScrollable ⟨0, 0, 10, 5⟩).x_offset ≤
      (Scrollable.draw innerUnit staleScrollable ⟨0, 0, 10, 5⟩).max_offsets.max_x_offset) := by
  exact ⟨rfl, rfl, by decide⟩

/-- C5 amended: draw stores the parent rectangle and recomputes the offset
maxima from the latest parent and content sizes, but leaves both persisted
offsets exactly as they were; no re-clamping of x_offset or y_offset happens
during draw, so offset ≤ max_offset can fail after a shrink until the next
clamping scroll on that axis. -/
theorem c5_draw_no_reclamp {B : Type} (innerF : B → Rect → Rect) (s : Scrollable B)
    (area : Rect) :
    (Scrollable.draw innerF s area).x_offset = s.x_offset ∧
    (Scrollable.draw innerF s area).y_offset = s.y_offset ∧
    (Scrollable.draw innerF s area).parent_area = area ∧
    (Scrollable.draw innerF s area).max_offsets =
      Scrollable.get_max_offsets innerF s s.child_buffer area s.block :=
  ⟨rfl, rfl, rfl, rfl⟩

/-- A child renderer that writes nothing: every cell stays blank. -/
def blankRenderer : Rect → Buffer → Buffer := fun _ b => b

/-- C8: the no-abort claim fails on the code.  Scrollable::child with a child
renderer that leaves every cell blank trims the measuring canvas to width 0
and then evaluates u16::MAX.saturating_div(0), which panics with a division
by zero; the embedding returns none exactly at that panic site. -/
theorem c8_child_division_by_zero :
    Scrollable.child (Scrollable.new : Scrollable Unit) 5 5 blankRenderer = none := by
  rfl

/-- The key code is a character key. -/
abbrev isCharKey (k : KeyEvent) : Prop := k.code = KeyCode.char k.code.charOf

/-- No arm of the Normal | Visual | Operator match of Vim::transition applies
to this state and key, so control reaches the final catch-all. -/
abbrev nvoNoRule (v : Vim) (k : KeyEvent) : Prop :=
  ¬armH k ∧ ¬armJ k ∧ ¬armK k ∧ ¬armL k ∧ ¬armW k ∧ ¬armEOp v k ∧ ¬armE k ∧ ¬armB k ∧
  ¬armCaret k ∧ ¬armZero k ∧ ¬armDollar k ∧ ¬armShiftD k ∧ ¬armShiftC k ∧ ¬armP k ∧
  ¬armU k ∧ ¬armRedo k ∧ ¬armR k ∧ ¬armX k ∧ ¬armShiftX k ∧ ¬armI k ∧ ¬armAWord v k ∧
  ¬armA k ∧ ¬armShiftA k ∧ ¬armO k ∧ ¬armShiftO k ∧ ¬armShiftI k ∧ ¬armCtrlE k ∧
  ¬armCtrlY k ∧ ¬armCtrlD k ∧ ¬armCtrlU k ∧ ¬armCtrlF k ∧ ¬armCtrlB k ∧ ¬armV v k ∧
  ¬armShiftV v k ∧ ¬armVisualEsc v k ∧ ¬armGG v k ∧ ¬armShiftG k ∧ ¬armOwnChar v k ∧
  ¬armOpEntry v k ∧ ¬armYVisual v k ∧ ¬armDVisual v k ∧ ¬armCVisual v k ∧ ¬armShiftS k ∧
  ¬armEsc k

/-- No rule of the Insert block applies: the key is not Esc/Ctrl-c, not a
handled Backspace or Tab, carries no shift modifier, and is neither a
character nor Enter. -/
abbrev insNoRule (k : KeyEvent) : Prop :=
  ¬(k.code = KeyCode.esc ∨ (k.code = KeyCode.char 'c' ∧ k.modifiers = KeyMods.CONTROL)) ∧
  ¬(k.code = KeyCode.backspace ∧ k.modifiers = KeyMods.NONE) ∧
  ¬(k.code = KeyCode.backspace ∧ k.modifiers = KeyMods.ALT) ∧
  ¬(k.code = KeyCode.tab ∧ k.modifiers = KeyMods.NONE) ∧
  ¬(k.code = KeyCode.tab ∧ k.modifiers = KeyMods.SHIFT) ∧
  ¬(k.modifiers = KeyMods.SHIFT) ∧
  ¬isCharKey k ∧ k.code ≠ KeyCode.enter

/-- No rule of the Replace block applies: the key is not Esc/Ctrl-c and
neither a character nor Enter, so nothing is overwritten. -/
abbrev repNoRule (k : KeyEvent) : Prop :=
  ¬(k.code = KeyCode.esc ∨ (k.code = KeyCode.char 'c' ∧ k.modifiers = KeyMods.CONTROL)) ∧
  ¬isCharKey k ∧ k.code ≠ KeyCode.enter

/-- In the Normal | Visual | Operator block, a state and key with no matching
arm reach the catch-all, which buffers the key untouched. -/
theorem transNVO_noRule (api : TAApi) (v : Vim) (k : KeyEvent) (tr : List TAOp)
    (h : nvoNoRule v k) :
    Vim.transNVO api v k tr = (Transition.pending k, tr, []) := by
  obtain ⟨h1, h2, h3, h4, h5, h6, h7, h8, h9, h10, h11, h12, h13, h14, h15, h16, h17,
    h18, h19, h20, h21, h22, h23, h24, h25, h26, h27, h28, h29, h30, h31, h32, h33,
    h34, h35, h36, h37, h38, h39, h40, h41, h42, h43, h44⟩ := h
  simp only [Vim.transNVO, if_neg h1, if_neg h2, if_neg h3, if_neg h4, if_neg h5,
    if_neg h6, if_neg h7, if_neg h8, if_neg h9, if_neg h10, if_neg h11, if_neg h12,
    if_neg h13, if_neg h14, if_neg h15, if_neg h16, if_neg h17, if_neg h18, if_neg h19,
    if_neg h20, if_neg h21, if_neg h22, if_neg h23, if_neg h24, if_neg h25, if_neg h26,
    if_neg h27, if_neg h28, if_neg h29, if_neg h30, if_neg h31, if_neg h32, if_neg h33,
    if_neg h34, if_neg h35, if_neg h36, if_neg h37, if_neg h38, if_neg h39, if_neg h40,
    if_neg h41, if_neg h42, if_neg h43, if_neg h44]

/-- C3 amended: a key with no matching rule leaves the buffer untouched and
emits no action in every mode; in Normal, Visual and OperatorPending modes it
is returned as Pending(k) and in Insert mode as Nop, exactly as claimed, but
in Replace mode such a key returns Transition::Mode(Normal) (leaving Replace
mode) rather than Nop or Pending. -/
theorem c3_unmatched_keys (api : TAApi) (v : Vim) (k : KeyEvent) (tr : List TAOp) :
    ((v.mode = Mode.normal ∨ v.mode = Mode.visual ∨ v.mode.isOperator = true) →
      nvoNoRule v k → Vim.transition api v k tr = (Transition.pending k, tr, [])) ∧
    (v.mode = Mode.insert → insNoRule k →
      Vim.transition api v k tr = (Transition.nop, tr, [])) ∧
    (v.mode = Mode.replace → repNoRule k →
      Vim.transition api v k tr = (Transition.mode Mode.normal, tr, [])) := by
  obtain ⟨mo, p, tx⟩ := v
  refine ⟨?_, ?_, ?_⟩
  · intro hm h
    cases mo
    · exact transNVO_noRule api ⟨Mode.normal, p, tx⟩ k tr h
    · simp only at hm
      rcases hm with h' | h' | h' <;> exact absurd h' (by decide)
    · exact transNVO_noRule api ⟨Mode.visual, p, tx⟩ k tr h
    · simp only at hm
      rcases hm with h' | h' | h' <;> exact absurd h' (by decide)
    · exact transNVO_noRule api ⟨Mode.operator _, p, tx⟩ k tr h
  · intro hm h
    simp only at hm
    subst hm
    obtain ⟨g1, g2, g3, g4, g5, g6, g7, g8⟩ := h
    obtain ⟨kc, km⟩ := k
    simp only at g1 g2 g3 g4 g5 g6 g7 g8
    show Vim.transInsert api ⟨kc, km⟩ tr = (Transition.nop, tr, [])
    simp only [Vim.transInsert, if_neg g1, if_neg g2, if_neg g3, if_neg g4, if_neg g5,
      if_neg g6]
    cases kc
    · exact absurd rfl g7
    · rfl
    · rfl
    · rfl
    · rfl
    · rfl
    · exact absurd rfl g8
    · rfl
    · rfl
    · rfl
    · rfl
    · rfl
  · intro hm h
    simp only at hm
    subst hm
    obtain ⟨g1, g2, g3⟩ := h
    obtain ⟨kc, km⟩ := k
    simp only at g1 g2 g3
    show Vim.transReplace ⟨kc, km⟩ tr = (Transition.mode Mode.normal, tr, [])
    simp only [Vim.transReplace, if_neg g1]
    cases kc
    · exact absurd rfl g2
    · rfl
    · rfl
    · rfl
    · rfl
    · rfl
    · exact absurd rfl g3
    · rfl
    · rfl
    · rfl
    · rfl
    · rfl

/-- C3 counterexample: in Replace mode the Left arrow matches no rule, yet
the transition returns Mode(Normal), which is neither Nop nor a Pending
buffering of the key (the buffer is still untouched). -/
theorem c3_counterexample :
    Vim.transition sampleApi ⟨Mode.replace, none, true⟩ ⟨KeyCode.left, KeyMods.NONE⟩ [] =
      (Transition.mode Mode.normal, [], []) ∧
    Transition.mode Mode.normal ≠ Transition.nop ∧
    Transition.mode Mode.normal ≠ Transition.pending ⟨KeyCode.left, KeyMods.NONE⟩ := by
  decide

/-- Witness for C3's amended theorem: the unbound z key in Normal mode is
buffered as Pending with the trace untouched. -/
theorem c3_witness :
    Vim.transition sampleApi ⟨Mode.normal, none, true⟩ ⟨KeyCode.char 'z', KeyMods.NONE⟩ [] =
      (Transition.pending ⟨KeyCode.char 'z', KeyMods.NONE⟩, [], []) :=
  (c3_unmatched_keys sampleApi ⟨Mode.normal, none, true⟩ ⟨KeyCode.char 'z', KeyMods.NONE⟩
    []).1 (Or.inl rfl) (by (repeat' apply And.intro) ; all_goals decide)

/-- Characterization of one row of the clamp scan: the fold keeps the state
monotone, records y+1 and x+1 for every cell of the row satisfying the
predicate, and only attains values it actually saw. -/
theorem clampInner_spec (q : Nat → Prop) [DecidablePred q] (y : Nat) :
    ∀ (xs : List Nat) (st : Nat × Nat),
      st.1 ≤ (xs.foldl (fun st2 x =>
          if q x then (max st2.1 (y + 1), max st2.2 (x + 1)) else st2) st).1 ∧
      st.2 ≤ (xs.foldl (fun st2 x =>
          if q x then (max st2.1 (y + 1), max st2.2 (x + 1)) else st2) st).2 ∧
      (∀ x ∈ xs, q x →
        y + 1 ≤ (xs.foldl (fun st2 x =>
          if q x then (max st2.1 (y + 1), max st2.2 (x + 1)) else st2) st).1 ∧
        x + 1 ≤ (xs.foldl (fun st2 x =>
          if q x then (max st2.1 (y + 1), max st2.2 (x + 1)) else st2) st).2) ∧
      ((xs.foldl (fun st2 x =>
          if q x then (max st2.1 (y + 1), max st2.2 (x + 1)) else st2) st).1 = st.1 ∨
        ((∃ x ∈ xs, q x) ∧ (xs.foldl (fun st2 x =>
          if q x then (max st2.1 (y + 1), max st2.2 (x + 1)) else st2) st).1 = y + 1)) ∧
      ((xs.foldl (fun st2 x =>
          if q x then (max st2.1 (y + 1), max st2.2 (x + 1)) else st2) st).2 = st.2 ∨
        ∃ x ∈ xs, q x ∧ (xs.foldl (fun st2 x =>
          if q x then (max st2.1 (y + 1), max st2.2 (x + 1)) else st2) st).2 = x + 1) := by
  intro xs
  induction xs with
  | nil =>
    intro st
    exact ⟨le_refl _, le_refl _, by simp, Or.inl rfl, Or.inl rfl⟩
  | cons a l ih =>
    intro st
    by_cases ha : q a
    · have hstep : (fun st2 x =>
          if q x then (max st2.1 (y + 1), max st2.2 (x + 1)) else st2) st a =
          (max st.1 (y + 1), max st.2 (a + 1)) := by simp [ha]
      simp only [List.foldl_cons, hstep]
      obtain ⟨i1, i2, i3, i4, i5⟩ := ih (max st.1 (y + 1), max st.2 (a + 1))
      refine ⟨le_trans (le_max_left _ _) i1, le_trans (le_max_left _ _) i2, ?_, ?_, ?_⟩
      · intro x hx hqx
        rcases List.mem_cons.1 hx with rfl | hx'
        · exact ⟨le_trans (le_max_right _ _) i1, le_trans (le_max_right _ _) i2⟩
        · exact i3 x hx' hqx
      · rcases i4 with h' | ⟨⟨x, hx, hqx⟩, h'⟩
        · rcases max_choice st.1 (y + 1) with hc | hc
          · exact Or.inl (h'.trans hc)
          · exact Or.inr ⟨⟨a, List.mem_cons_self a l, ha⟩, h'.trans hc⟩
        · exact Or.inr ⟨⟨x, List.mem_cons_of_mem a hx, hqx⟩, h'⟩
      · rcases i5 with h' | ⟨x, hx, hqx, h'⟩
        · rcases max_choice st.2 (a + 1) with hc | hc
          · exact Or.inl (h'.trans hc)
          · exact Or.inr ⟨a, List.mem_cons_self a l, ha, h'.trans hc⟩
        · exact Or.inr ⟨x, List.mem_cons_of_mem a hx, hqx, h'⟩
    · have hstep : (fun st2 x =>
          if q x then (max st2.1 (y + 1), max st2.2 (x + 1)) else st2) st a = st := by
        simp [ha]
      simp only [List.foldl_cons, hstep]
      obtain ⟨i1, i2, i3, i4, i5⟩ := ih st
      refine ⟨i1, i2, ?_, ?_, ?_⟩
      · intro x hx hqx
        rcases List.mem_cons.1 hx with rfl | hx'
        · exact absurd hqx ha
        · exact i3 x hx' hqx
      · rcases i4 with h' | ⟨⟨x, hx, hqx⟩, h'⟩
        · exact Or.inl h'
        · exact Or.inr ⟨⟨x, List.mem_cons_of_mem a hx, hqx⟩, h'⟩
      · rcases i5 with h' | ⟨x, hx, hqx, h'⟩
        · exact Or.inl h'
        · exact Or.inr ⟨x, List.mem_cons_of_mem a hx, hqx, h'⟩

/-- Characterization of the full clamp scan over rows and columns. -/
theorem clampOuter_spec (nb : Nat → Nat → Prop) [∀ x y, Decidable (nb x y)]
    (xs : List Nat) :
    ∀ (ys : List Nat) (st : Nat × Nat),
      st.1 ≤ (ys.foldl (fun st1 y => xs.foldl (fun st2 x =>
          if nb x y then (max st2.1 (y + 1), max st2.2 (x + 1)) else st2) st1) st).1 ∧
      st.2 ≤ (ys.foldl (fun st1 y => xs.foldl (fun st2 x =>
          if nb x y then (max st2.1 (y + 1), max st2.2 (x + 1)) else st2) st1) st).2 ∧
      (∀ y ∈ ys, ∀ x ∈ xs, nb x y →
        y + 1 ≤ (ys.foldl (fun st1 y => xs.foldl (fun st2 x =>
          if nb x y then (max st2.1 (y + 1), max st2.2 (x + 1)) else st2) st1) st).1 ∧
        x + 1 ≤ (ys.foldl (fun st1 y => xs.foldl (fun st2 x =>
          if nb x y then (max st2.1 (y + 1), max st2.2 (x + 1)) else st2) st1) st).2) ∧
      ((ys.foldl (fun st1 y => xs.foldl (fun st2 x =>
          if nb x y then (max st2.1 (y + 1), max st2.2 (x + 1)) else st2) st1) st).1 = st.1 ∨
        ∃ y ∈ ys, (∃ x ∈ xs, nb x y) ∧
          (ys.foldl (fun st1 y => xs.foldl (fun st2 x =>
            if nb x y then (max st2.1 (y + 1), max st2.2 (x + 1)) else st2) st1) st).1 = y + 1) ∧
      ((ys.foldl (fun st1 y => xs.foldl (fun st2 x =>
          if nb x y then (max st2.1 (y + 1), max st2.2 (x + 1)) else st2) st1) st).2 = st.2 ∨
        ∃ y ∈ ys, ∃ x ∈ xs, nb x y ∧
          (ys.foldl (fun st1 y => xs.foldl (fun st2 x =>
            if nb x y then (max st2.1 (y + 1), max st2.2 (x + 1)) else st2) st1) st).2 = x + 1) := by
  intro ys
  induction ys with
  | nil =>
    intro st
    exact ⟨le_refl _, le_refl _, by simp, Or.inl rfl, Or.inl rfl⟩
  | cons b l ih =>
    intro st
    simp only [List.foldl_cons]
    obtain ⟨j1, j2, j3, j4, j5⟩ := clampInner_spec (fun x => nb x b) b xs st
    obtain ⟨i1, i2, i3, i4, i5⟩ := ih (xs.foldl (fun st2 x =>
      if nb x b then (max st2.1 (b + 1), max st2.2 (x + 1)) else st2) st)
    refine ⟨le_trans j1 i1, le_trans j2 i2, ?_, ?_, ?_⟩
    · intro y hy x hx hnb
      rcases List.mem_cons.1 hy with rfl | hy'
      · exact ⟨le_trans (j3 x hx hnb).1 i1, le_trans (j3 x hx hnb).2 i2⟩
      · exact i3 y hy' x hx hnb
    · rcases i4 with h' | ⟨y, hy, hex, h'⟩
      · rcases j4 with h'' | ⟨hex, h''⟩
        · exact Or.inl (h'.trans h'')
        · exact Or.inr ⟨b, List.mem_cons_self b l, hex, h'.trans h''⟩
      · exact Or.inr ⟨y, List.mem_cons_of_mem b hy, hex, h'⟩
    · rcases i5 with h' | ⟨y, hy, x, hx, hnb, h'⟩
      · rcases j5 with h'' | ⟨x, hx, hnb, h''⟩
        · exact Or.inl (h'.trans h'')
        · exact Or.inr ⟨b, List.mem_cons_self b l, x, hx, hnb, h'.trans h''⟩
      · exact Or.inr ⟨y, List.mem_cons_of_mem b hy, x, hx, hnb, h'⟩

/-- Every non-blank in-bounds cell pushes the scan result past its row and
column. -/
theorem clampScan_cover (b : Buffer) (x y : Nat) (hx : x < b.area.width)
    (hy : y < b.area.height) (hnb : (b.readCell x y).symbol ≠ " ") :
    y + 1 ≤ (clampScan b).1 ∧ x + 1 ≤ (clampScan b).2 := by
  have h := (clampOuter_spec (fun x y => (b.readCell x y).symbol ≠ " ")
    (List.range b.area.width).reverse (List.range b.area.height).reverse (0, 0)).2.2.1
  exact h y (by simp [hy]) x (by simp [hx]) hnb

/-- The scan result is attained: each component is zero or comes from an
actual non-blank in-bounds cell. -/
theorem clampScan_attain (b : Buffer) :
    ((clampScan b).1 = 0 ∨ ∃ y, y < b.area.height ∧
      (∃ x, x < b.area.width ∧ (b.readCell x y).symbol ≠ " ") ∧ (clampScan b).1 = y + 1) ∧
    ((clampScan b).2 = 0 ∨ ∃ y, y < b.area.height ∧ ∃ x, x < b.area.width ∧
      (b.readCell x y).symbol ≠ " " ∧ (clampScan b).2 = x + 1) := by
  have h := clampOuter_spec (fun x y => (b.readCell x y).symbol ≠ " ")
    (List.range b.area.width).reverse (List.range b.area.height).reverse (0, 0)
  constructor
  · rcases h.2.2.2.1 with h' | ⟨y, hy, ⟨x, hx, hnb⟩, h'⟩
    · exact Or.inl h'
    · exact Or.inr ⟨y, by simpa using hy, ⟨x, by simpa using hx, hnb⟩, h'⟩
  · rcases h.2.2.2.2 with h' | ⟨y, hy, x, hx, hnb, h'⟩
    · exact Or.inl h'
    · exact Or.inr ⟨y, by simpa using hy, x, by simpa using hx, hnb, h'⟩

/-- If the used height is zero then so is the used width, and conversely. -/
theorem clampScan_zero (b : Buffer) :
    ((clampScan b).1 = 0 ↔ (clampScan b).2 = 0) := by
  constructor
  · intro h0
    rcases (clampScan_attain b).2 with h' | ⟨y, hy, x, hx, hnb, h'⟩
    · exact h'
    · have := (clampScan_cover b x y hx hy hnb).1
      omega
  · intro h0
    rcases (clampScan_attain b).1 with h' | ⟨y, hy, ⟨x, hx, hnb⟩, h'⟩
    · exact h'
    · have := (clampScan_cover b x y hx hy hnb).2
      omega

/-- Length of a flatMap over an initial range with constant row length. -/
theorem flatMap_range_length (f : Nat → List Cell) (L : Nat)
    (hL : ∀ y, (f y).length = L) (n : Nat) :
    ((List.range n).flatMap f).length = n * L := by
  induction n with
  | zero => simp
  | succ n ih =>
    rw [List.range_succ]
    simp [ih, hL, Nat.succ_mul]

/-- Element lookup inside a flatMap over an initial range with constant row
length. -/
theorem flatMap_range_get (f : Nat → List Cell) (L : Nat)
    (hL : ∀ y, (f y).length = L) :
    ∀ (n k j : Nat), k < n → j < L →
      ((List.range n).flatMap f).get? (k * L + j) = (f k).get? j := by
  intro n
  induction n with
  | zero => intro k j hk hj; omega
  | succ n ih =>
    intro k j hk hj
    rw [List.range_succ, List.flatMap_append]
    by_cases hkn : k < n
    · rw [List.get?_append]
      · exact ih k j hkn hj
      · rw [flatMap_range_length f L hL]
        have hmul : (k + 1) * L ≤ n * L := Nat.mul_le_mul_right L hkn
        have : k * L + j < k * L + L := by omega
        calc k * L + j < (k + 1) * L := by rw [Nat.succ_mul]; omega
          _ ≤ n * L := hmul
    · have hk' : k = n := by omega
      subst hk'
      rw [List.get?_append_right]
      · rw [flatMap_range_length f L hL]
        have he : k * L + j - k * L = j := by omega
        rw [he]
        simp
      · rw [flatMap_range_length f L hL]
        omega

/-- Reading an element of a take-of-drop window is reading at the shifted
index. -/
theorem getD_take_drop (l : List Cell) (s w i : Nat) (hi : i < w) (d : Cell) :
    ((l.drop s).take w).getD i d = (l.get? (s + i)).getD d := by
  rw [List.getD_eq_getD_get?, List.get?_take hi, List.get?_drop]

/-- Inside the trimmed rectangle, clamp preserves every cell of the original
buffer. -/
theorem clamp_readCell (b : Buffer) (x y : Nat) (hx : x < (clampScan b).2)
    (hy : y < (clampScan b).1) :
    (clamp b).readCell x y = b.readCell x y := by
  have hcon : (clamp b).content = (List.range (clampScan b).1).flatMap (fun y =>
      (List.range (clampScan b).2).map (fun x => b.readCell x y)) := rfl
  have harea : (clamp b).area.width = (clampScan b).2 := rfl
  rw [Buffer.readCell, get_row, harea, hcon]
  rw [getD_take_drop _ _ _ _ hx]
  rw [flatMap_range_get _ (clampScan b).2 (fun y => by simp) (clampScan b).1 y x hy hx]
  rw [List.get?_map, List.get?_range hx]
  rfl

/-- Pointwise-equal row functions give equal flatMaps. -/
theorem flatMapCongr {α β : Type} (l : List α) (f g : α → List β)
    (h : ∀ a ∈ l, f a = g a) : l.flatMap f = l.flatMap g := by
  induction l with
  | nil => rfl
  | cons a t ih =>
    simp only [List.flatMap_cons]
    rw [h a (List.mem_cons_self a t), ih (fun a ha => h a (List.mem_cons_of_mem _ ha))]

/-- Re-scanning a trimmed buffer finds the same used extent. -/
theorem clampScan_clamp (b : Buffer) : clampScan (clamp b) = clampScan b := by
  have harea_w : (clamp b).area.width = (clampScan b).2 := rfl
  have harea_h : (clamp b).area.height = (clampScan b).1 := rfl
  by_cases h0 : (clampScan b).1 = 0
  · have h0w : (clampScan b).2 = 0 := (clampScan_zero b).1 h0
    have hcs : clampScan (clamp b) = (0, 0) := by
      unfold clampScan
      rw [show (clamp b).area.height = 0 from harea_h.trans h0]
      simp
    rw [hcs]
    exact (Prod.ext_iff.2 ⟨h0, h0w⟩).symm
  · rcases (clampScan_attain b).1 with h' | ⟨y0, hy0, ⟨x0, hx0, hnb0⟩, hH⟩
    · exact absurd h' h0
    rcases (clampScan_attain b).2 with h' | ⟨y1, hy1, x1, hx1, hnb1, hW⟩
    · exact absurd ((clampScan_zero b).2 h') h0
    have hc0 := clampScan_cover b x0 y0 hx0 hy0 hnb0
    have hc1 := clampScan_cover b x1 y1 hx1 hy1 hnb1
    have hr0 : (clamp b).readCell x0 y0 = b.readCell x0 y0 :=
      clamp_readCell b x0 y0 (by omega) (by omega)
    have hr1 : (clamp b).readCell x1 y1 = b.readCell x1 y1 :=
      clamp_readCell b x1 y1 (by omega) (by omega)
    have hub0 := clampScan_cover (clamp b) x0 y0
      (by rw [harea_w]; omega) (by rw [harea_h]; omega) (by rw [hr0]; exact hnb0)
    have hub1 := clampScan_cover (clamp b) x1 y1
      (by rw [harea_w]; omega) (by rw [harea_h]; omega) (by rw [hr1]; exact hnb1)
    have hat := clampScan_attain (clamp b)
    have hle1 : (clampScan (clamp b)).1 ≤ (clampScan b).1 := by
      rcases hat.1 with h' | ⟨y, hy, _, h'⟩
      · omega
      · rw [harea_h] at hy; omega
    have hle2 : (clampScan (clamp b)).2 ≤ (clampScan b).2 := by
      rcases hat.2 with h' | ⟨y, hy, x, hx, _, h'⟩
      · omega
      · rw [harea_w] at hx; omega
    have h1 : (clampScan (clamp b)).1 = (clampScan b).1 := by
      have := hub0.1; omega
    have h2 : (clampScan (clamp b)).2 = (clampScan b).2 := by
      have := hub1.2; omega
    exact Prod.ext_iff.2 ⟨h1, h2⟩

/-- Trimming is idempotent. -/
theorem clamp_clamp (b : Buffer) : clamp (clamp b) = clamp b := by
  have hs := clampScan_clamp b
  show Buffer.mk ⟨0, 0, (clampScan (clamp b)).2, (clampScan (clamp b)).1⟩
    ((List.range (clampScan (clamp b)).1).flatMap (fun y =>
      (List.range (clampScan (clamp b)).2).map (fun x => (clamp b).readCell x y))) =
    Buffer.mk ⟨0, 0, (clampScan b).2, (clampScan b).1⟩
      ((List.range (clampScan b).1).flatMap (fun y =>
        (List.range (clampScan b).2).map (fun x => b.readCell x y)))
  rw [hs]
  congr 1
  apply flatMapCongr
  intro y hy
  apply List.map_congr_left
  intro x hx
  exact clamp_readCell b x y (List.mem_range.1 hx) (List.mem_range.1 hy)

/-- C7: clamp computes the used bounding box of a buffer, the smallest
origin-anchored rectangle covering all cells whose symbol is not a blank
space, preserves the covered cells, and is idempotent: clamping a clamped
buffer returns it unchanged. -/
theorem c7_clamp_bounding_box (b : Buffer) :
    ((clamp b).area.x = 0 ∧ (clamp b).area.y = 0) ∧
    (∀ x y, x < b.area.width → y < b.area.height → (b.readCell x y).symbol ≠ " " →
      x < (clamp b).area.width ∧ y < (clamp b).area.height) ∧
    (∀ W H, (∀ x y, x < b.area.width → y < b.area.height →
        (b.readCell x y).symbol ≠ " " → x < W ∧ y < H) →
      (clamp b).area.width ≤ W ∧ (clamp b).area.height ≤ H) ∧
    (∀ x y, x < (clamp b).area.width → y < (clamp b).area.height →
      (clamp b).readCell x y = b.readCell x y) ∧
    clamp (clamp b) = clamp b := by
  refine ⟨⟨rfl, rfl⟩, ?_, ?_, ?_, clamp_clamp b⟩
  · intro x y hx hy hnb
    have h := clampScan_cover b x y hx hy hnb
    constructor
    · show x < (clampScan b).2; omega
    · show y < (clampScan b).1; omega
  · intro W H hcov
    constructor
    · show (clampScan b).2 ≤ W
      rcases (clampScan_attain b).2 with h' | ⟨y, hy, x, hx, hnb, h'⟩
      · omega
      · have := (hcov x y hx hy hnb).1; omega
    · show (clampScan b).1 ≤ H
      rcases (clampScan_attain b).1 with h' | ⟨y, hy, ⟨x, hx, hnb⟩, h'⟩
      · omega
      · have := (hcov x y hx hy hnb).2; omega
  · intro x y hx hy
    exact clamp_readCell b x y hx hy

/-- A 2 by 2 buffer whose only non-blank cell sits at column 1 of row 0. -/
def c7Buf : Buffer :=
  ⟨⟨0, 0, 2, 2⟩, [defaultCell, ⟨"a", 0, 0, 0, false⟩, defaultCell, defaultCell]⟩

/-- Witness for C7 at a concrete buffer: trimming is idempotent, the covered
cell is preserved, and the trimmed extent is 2 by 1. -/
theorem c7_witness :
    clamp (clamp c7Buf) = clamp c7Buf ∧
    (clamp c7Buf).readCell 1 0 = c7Buf.readCell 1 0 ∧
    (clamp c7Buf).area.width = 2 ∧ (clamp c7Buf).area.height = 1 :=
  ⟨(c7_clamp_bounding_box c7Buf).2.2.2.2,
   (c7_clamp_bounding_box c7Buf).2.2.2.1 1 0 (by decide) (by decide),
   by decide, by decide⟩

/-- The destination cell of a buffer at absolute coordinates, through the
row-major index the source's get_mut uses. -/
def Buffer.cellAt (b : Buffer) (x y : Nat) : Cell :=
  (b.content.get? ((y - b.area.y) * b.area.width + (x - b.area.x))).getD defaultCell

/-- Row-major indices are injective on in-range row and column components. -/
theorem rowcol_inj (w a c d e : Nat) (hb : c < w) (hd : e < w)
    (h : a * w + c = d * w + e) : a = d ∧ c = e := by
  have hw : 0 < w := by omega
  have hb' : (a * w + c) % w = c := by
    rw [Nat.mul_comm, Nat.mul_add_mod]; exact Nat.mod_eq_of_lt hb
  have hd' : (d * w + e) % w = e := by
    rw [Nat.mul_comm, Nat.mul_add_mod]; exact Nat.mod_eq_of_lt hd
  have hbd : c = e := by rw [← hb', ← hd', h]
  subst hbd
  have hmul : a * w = d * w := by omega
  exact ⟨Nat.eq_of_mul_eq_mul_right hw hmul, rfl⟩

/-- Full description of a single destination write: it succeeds only inside
the destination area, rewrites exactly the target cell with the source's
symbol, colors and skip flag while retaining the old modifier, and leaves
every other in-area cell alone. -/
theorem setCellStyled_spec (b : Buffer) (x y : Nat) (c : Cell) (b' : Buffer)
    (h : setCellStyled b x y c = some b') :
    b'.area = b.area ∧
    (b.area.x ≤ x ∧ x < b.area.x + b.area.width ∧
      b.area.y ≤ y ∧ y < b.area.y + b.area.height) ∧
    (∀ p q, b.area.x ≤ p → p < b.area.x + b.area.width → b.area.y ≤ q →
      q < b.area.y + b.area.height →
      b'.cellAt p q =
        if p = x ∧ q = y then
          ⟨c.symbol, c.fg, c.bg, (b.cellAt x y).modifier, c.skip⟩
        else b.cellAt p q) := by
  rw [setCellStyled] at h
  split at h
  case isFalse => exact absurd h (by simp)
  case isTrue hin =>
    simp only at h
    obtain ⟨hx1, hx2, hy1, hy2⟩ := hin
    split at h
    case h_2 => exact absurd h (by simp)
    case h_1 old hold =>
      injection h with h2
      subst h2
      have hlt : (y - b.area.y) * b.area.width + (x - b.area.x) < b.content.length :=
        List.get?_eq_some.1 hold |>.1
      have holdD : b.cellAt x y = old := by
        rw [Buffer.cellAt, hold]; rfl
      refine ⟨rfl, ⟨hx1, hx2, hy1, hy2⟩, ?_⟩
      intro p q hp1 hp2 hq1 hq2
      by_cases hpq : p = x ∧ q = y
      · obtain ⟨rfl, rfl⟩ := hpq
        rw [if_pos ⟨rfl, rfl⟩, Buffer.cellAt]
        simp only [List.get?_set_eq_of_lt _ hlt]
        rw [holdD]
        rfl
      · rw [if_neg hpq, Buffer.cellAt, Buffer.cellAt]
        have hne : (q - b.area.y) * b.area.width + (p - b.area.x) ≠
            (y - b.area.y) * b.area.width + (x - b.area.x) := by
          intro he
          have := rowcol_inj b.area.width (q - b.area.y) (p - b.area.x)
            (y - b.area.y) (x - b.area.x) (by omega) (by omega) he
          exact hpq ⟨by omega, by omega⟩
        rw [List.get?_set_ne _ _ hne.symm]

/-- Characterization of the inner column loop of the renderer: a successful
pass over columns x0..x0+n of destination row y copies symbol, colors and
skip flag of the scrolled source cells, retains each destination cell's
modifier, and leaves every other in-area cell untouched. -/
theorem copyCols_spec {B : Type} (s : Scrollable B) (area1 : Rect) (row : List Cell)
    (y : Nat) :
    ∀ (n x0 : Nat) (b b' : Buffer),
      (List.range' x0 n).foldlM (Renderer.copyCell s area1 row y) b = some b' →
      b'.area = b.area ∧
      (∀ p q, b.area.x ≤ p → p < b.area.x + b.area.width → b.area.y ≤ q →
        q < b.area.y + b.area.height →
        b'.cellAt p q =
          if q = y ∧ x0 ≤ p ∧ p < x0 + n then
            ⟨(row.getD (u16wSub (u16wAdd p s.x_offset) area1.x) defaultCell).symbol,
             (row.getD (u16wSub (u16wAdd p s.x_offset) area1.x) defaultCell).fg,
             (row.getD (u16wSub (u16wAdd p s.x_offset) area1.x) defaultCell).bg,
             (b.cellAt p q).modifier,
             (row.getD (u16wSub (u16wAdd p s.x_offset) area1.x) defaultCell).skip⟩
          else b.cellAt p q) := by
  intro n
  induction n with
  | zero =>
    intro x0 b b' h
    have h' : some b = some b' := h
    injection h' with h2
    subst h2
    refine ⟨rfl, ?_⟩
    intro p q hp1 hp2 hq1 hq2
    rw [if_neg (by omega)]
  | succ n ih =>
    intro x0 b b' h
    rw [show List.range' x0 (n + 1) = x0 :: List.range' (x0 + 1) n from rfl] at h
    rw [List.foldlM_cons] at h
    rcases hs : Renderer.copyCell s area1 row y b x0 with _ | bmid
    · rw [hs] at h; exact absurd h (by simp)
    · rw [hs] at h
      replace h : (List.range' (x0 + 1) n).foldlM
        (Renderer.copyCell s area1 row y) bmid = some b' := h
      rw [Renderer.copyCell] at hs
      rcases hr : row.get? (u16wSub (u16wAdd x0 s.x_offset) area1.x) with _ | cell
      · rw [hr] at hs; exact absurd hs (by simp)
      · rw [hr] at hs
        obtain ⟨harea, hbounds, hcells⟩ := setCellStyled_spec b x0 y cell bmid hs
        obtain ⟨harea', hcells'⟩ := ih (x0 + 1) bmid b' h
        have hcellval :
            row.getD (u16wSub (u16wAdd x0 s.x_offset) area1.x) defaultCell = cell := by
          rw [List.getD_eq_getD_get?, hr]; rfl
        refine ⟨by rw [harea', harea], ?_⟩
        intro p q hp1 hp2 hq1 hq2
        have hp1' : bmid.area.x ≤ p := by rw [harea]; exact hp1
        have hp2' : p < bmid.area.x + bmid.area.width := by rw [harea]; exact hp2
        have hq1' : bmid.area.y ≤ q := by rw [harea]; exact hq1
        have hq2' : q < bmid.area.y + bmid.area.height := by rw [harea]; exact hq2
        have H' := hcells' p q hp1' hp2' hq1' hq2'
        have H := hcells p q hp1 hp2 hq1 hq2
        by_cases hq : q = y
        · subst hq
          by_cases hcase : x0 ≤ p ∧ p < x0 + (n + 1)
          · rw [if_pos ⟨rfl, hcase.1, hcase.2⟩]
            by_cases hpx : p = x0
            · subst hpx
              rw [H', if_neg (by omega)]
              rw [H, if_pos ⟨rfl, rfl⟩]
              rw [hcellval]
            · rw [H', if_pos ⟨rfl, by omega, by omega⟩]
              have hmod : bmid.cellAt p q = b.cellAt p q := by
                rw [H, if_neg (fun hh => hpx hh.1)]
              rw [hmod]
          · rw [if_neg (by omega)]
            rw [H', if_neg (by omega)]
            rw [H, if_neg (by omega)]
        · rw [if_neg (fun hh => hq hh.1)]
          rw [H', if_neg (fun hh => hq hh.1)]
          rw [H, if_neg (fun hh => hq hh.2)]

/-- The source cell that Renderer::render copies to destination coordinates
(p, q): the child row at the scrolled row index, at the scrolled column. -/
def renderSrc {B : Type} (s : Scrollable B) (area1 : Rect) (p q : Nat) : Cell :=
  (get_row s.child_buffer.content
    (u16wSub (u16wAdd q (s.get_requested_child_offset - s.y_offset)) area1.y)
    s.child_buffer.area.width).getD
    (u16wSub (u16wAdd p s.x_offset) area1.x) defaultCell

/-- Characterization of the row loop of the renderer: a successful pass over
rows y0..y0+m copies the scrolled source cells into the visible columns of
each row, retaining destination modifiers, and leaves all other in-area
cells untouched. -/
theorem copyRows_spec {B : Type} (s : Scrollable B) (area1 : Rect) (max_x : Nat) :
    ∀ (m y0 : Nat) (b b' : Buffer),
      (List.range' y0 m).foldlM (Renderer.copyRow s area1 max_x) b = some b' →
      b'.area = b.area ∧
      (∀ p q, b.area.x ≤ p → p < b.area.x + b.area.width → b.area.y ≤ q →
        q < b.area.y + b.area.height →
        b'.cellAt p q =
          if y0 ≤ q ∧ q < y0 + m ∧ area1.x ≤ p ∧ p < max_x then
            ⟨(renderSrc s area1 p q).symbol, (renderSrc s area1 p q).fg,
             (renderSrc s area1 p q).bg, (b.cellAt p q).modifier,
             (renderSrc s area1 p q).skip⟩
          else b.cellAt p q) := by
  intro m
  induction m with
  | zero =>
    intro y0 b b' h
    have h' : some b = some b' := h
    injection h' with h2
    subst h2
    refine ⟨rfl, ?_⟩
    intro p q hp1 hp2 hq1 hq2
    rw [if_neg (by omega)]
  | succ m ih =>
    intro y0 b b' h
    rw [show List.range' y0 (m + 1) = y0 :: List.range' (y0 + 1) m from rfl] at h
    rw [List.foldlM_cons] at h
    rcases hs : Renderer.copyRow s area1 max_x b y0 with _ | bmid
    · rw [hs] at h; exact absurd h (by simp)
    · rw [hs] at h
      replace h : (List.range' (y0 + 1) m).foldlM
        (Renderer.copyRow s area1 max_x) bmid = some b' := h
      by_cases hg : (u16wSub (u16wAdd y0 (s.get_requested_child_offset - s.y_offset))
            area1.y + 1) * s.child_buffer.area.width ≤ s.child_buffer.content.length
      · replace hs : (List.range' area1.x (max_x - area1.x)).foldlM
            (Renderer.copyCell s area1
              (get_row s.child_buffer.content
                (u16wSub (u16wAdd y0 (s.get_requested_child_offset - s.y_offset)) area1.y)
                s.child_buffer.area.width) y0) b = some bmid := by
          have hs' : (if (u16wSub (u16wAdd y0 (s.get_requested_child_offset - s.y_offset))
                area1.y + 1) * s.child_buffer.area.width ≤ s.child_buffer.content.length then
              (List.range' area1.x (max_x - area1.x)).foldlM
                (Renderer.copyCell s area1
                  (get_row s.child_buffer.content
                    (u16wSub (u16wAdd y0 (s.get_requested_child_offset - s.y_offset)) area1.y)
                    s.child_buffer.area.width) y0) b
            else none) = some bmid := hs
          rwa [if_pos hg] at hs'
        obtain ⟨harea, hcells⟩ := copyCols_spec s area1
          (get_row s.child_buffer.content
            (u16wSub (u16wAdd y0 (s.get_requested_child_offset - s.y_offset)) area1.y)
            s.child_buffer.area.width) y0 (max_x - area1.x) area1.x b bmid hs
        obtain ⟨harea', hcells'⟩ := ih (y0 + 1) bmid b' h
        refine ⟨by rw [harea', harea], ?_⟩
        intro p q hp1 hp2 hq1 hq2
        have hp1' : bmid.area.x ≤ p := by rw [harea]; exact hp1
        have hp2' : p < bmid.area.x + bmid.area.width := by rw [harea]; exact hp2
        have hq1' : bmid.area.y ≤ q := by rw [harea]; exact hq1
        have hq2' : q < bmid.area.y + bmid.area.height := by rw [harea]; exact hq2
        have H := hcells p q hp1 hp2 hq1 hq2
        have H' := hcells' p q hp1' hp2' hq1' hq2'
        by_cases hcase : y0 ≤ q ∧ q < y0 + (m + 1) ∧ area1.x ≤ p ∧ p < max_x
        · rw [if_pos hcase]
          by_cases hqy : q = y0
          · subst hqy
            rw [H', if_neg (by omega)]
            rw [H, if_pos ⟨rfl, hcase.2.2.1, by omega⟩]
            rfl
          · rw [H', if_pos ⟨by omega, by omega, hcase.2.2.1, hcase.2.2.2⟩]
            have hmod : bmid.cellAt p q = b.cellAt p q := by
              rw [H, if_neg (fun hh => hqy hh.1)]
            rw [hmod]
        · rw [if_neg hcase]
          have hnotIH : ¬(y0 + 1 ≤ q ∧ q < y0 + 1 + m ∧ area1.x ≤ p ∧ p < max_x) := by
            intro hh
            obtain ⟨h1, h2, h3, h4⟩ := hh
            exact hcase ⟨by omega, by omega, h3, h4⟩
          have hnotrow : ¬(q = y0 ∧ area1.x ≤ p ∧ p < area1.x + (max_x - area1.x)) := by
            intro hh
            obtain ⟨h1, h2, h3⟩ := hh
            exact hcase ⟨by omega, by omega, h2, by omega⟩
          rw [H', if_neg hnotIH]
          rw [H, if_neg hnotrow]
      · replace hs : (if (u16wSub (u16wAdd y0 (s.get_requested_child_offset - s.y_offset))
              area1.y + 1) * s.child_buffer.area.width ≤ s.child_buffer.content.length then
            (List.range' area1.x (max_x - area1.x)).foldlM
              (Renderer.copyCell s area1
                (get_row s.child_buffer.content
                  (u16wSub (u16wAdd y0 (s.get_requested_child_offset - s.y_offset)) area1.y)
                  s.child_buffer.area.width) y0) b
          else none) = some bmid := hs
        rw [if_neg hg] at hs
        exact absurd hs (by simp)

/-- Component equations for the rectangle intersection. -/
theorem interX (a b : Rect) : (a.intersection b).x = max a.x b.x := rfl

theorem interY (a b : Rect) : (a.intersection b).y = max a.y b.y := rfl

theorem interW (a b : Rect) :
    (a.intersection b).width =
      min (min (a.x + a.width) 65535) (min (b.x + b.width) 65535) - max a.x b.x := rfl

theorem interH (a b : Rect) :
    (a.intersection b).height =
      min (min (a.y + a.height) 65535) (min (b.y + b.height) 65535) - max a.y b.y := rfl

/-- Saturating sums below the cap compute a min of plain sums. -/
theorem minSatAdd (a b c : Nat) (h : a + b ≤ 65535) :
    min (satAdd16 a b) (satAdd16 a c) = a + min b c := by
  unfold satAdd16
  omega

/-- C9: a successful composited frame writes destination cells only in the
window of rows up to min(parent inner height, content height) and columns up
to min(parent inner width, content width) measured from the intersection
origin; written cells take symbol, colors and skip flag from the scrolled
source cell while keeping the destination's modifier, and every cell outside
that window retains its prior value. -/
theorem c9_render_copy_window {B : Type} (innerF : B → Rect → Rect)
    (blockRef : B → Rect → Buffer → Buffer) (s : Scrollable B) (area : Rect)
    (buf out : Buffer)
    (hblock : s.block = none)
    (hx16 : area.x + area.width + s.x_offset ≤ 65535)
    (hy16 : area.y + area.height +
      (s.get_requested_child_offset - s.y_offset) ≤ 65535)
    (hbufx : buf.area.x + buf.area.width ≤ 65535)
    (hbufy : buf.area.y + buf.area.height ≤ 65535)
    (hres : Renderer.render innerF blockRef s area buf = some out) :
    out.area = buf.area ∧
    (∀ p q, buf.area.x ≤ p → p < buf.area.x + buf.area.width →
      buf.area.y ≤ q → q < buf.area.y + buf.area.height →
      ¬((area.intersection buf.area).x ≤ p ∧
        p < (area.intersection buf.area).x +
          min (area.intersection buf.area).width s.child_buffer.area.width ∧
        (area.intersection buf.area).y ≤ q ∧
        q < (area.intersection buf.area).y +
          min (area.intersection buf.area).height s.child_buffer.area.height) →
      out.cellAt p q = buf.cellAt p q) ∧
    (∀ p q,
      (area.intersection buf.area).x ≤ p →
      p < (area.intersection buf.area).x +
        min (area.intersection buf.area).width s.child_buffer.area.width →
      (area.intersection buf.area).y ≤ q →
      q < (area.intersection buf.area).y +
        min (area.intersection buf.area).height s.child_buffer.area.height →
      out.cellAt p q =
        ⟨(renderSrc s (area.intersection buf.area) p q).symbol,
         (renderSrc s (area.intersection buf.area) p q).fg,
         (renderSrc s (area.intersection buf.area) p q).bg,
         (buf.cellAt p q).modifier,
         (renderSrc s (area.intersection buf.area) p q).skip⟩) := by
  simp only [Renderer.render, hblock, innerIfSome] at hres
  by_cases he : area.isEmpty
  · rw [if_pos he] at hres
    injection hres with h2
    subst h2
    refine ⟨rfl, fun _ _ _ _ _ _ _ => rfl, ?_⟩
    intro p q hp1 hp2 hq1 hq2
    exfalso
    have he' : area.width = 0 ∨ area.height = 0 := by
      simpa [Rect.isEmpty] using he
    simp only [interX, interY, interW, interH] at hp1 hp2 hq1 hq2
    rcases he' with he' | he' <;> omega
  · rw [if_neg he] at hres
    obtain ⟨harea, hcells⟩ := copyRows_spec s (area.intersection buf.area)
      (min (satAdd16 (area.intersection buf.area).x (area.intersection buf.area).width)
        (satAdd16 (area.intersection buf.area).x s.child_buffer.area.width))
      (min (satAdd16 (area.intersection buf.area).y (area.intersection buf.area).height)
        (satAdd16 (area.intersection buf.area).y s.child_buffer.area.height) -
        (area.intersection buf.area).y)
      (area.intersection buf.area).y buf out hres
    have hA1x : (area.intersection buf.area).x + (area.intersection buf.area).width ≤ 65535 := by
      simp only [interX, interW]
      omega
    have hA1y : (area.intersection buf.area).y + (area.intersection buf.area).height ≤ 65535 := by
      simp only [interY, interH]
      omega
    have hMX := minSatAdd (area.intersection buf.area).x
      (area.intersection buf.area).width s.child_buffer.area.width hA1x
    have hMY := minSatAdd (area.intersection buf.area).y
      (area.intersection buf.area).height s.child_buffer.area.height hA1y
    have eX := interX area buf.area
    have eY := interY area buf.area
    have eW := interW area buf.area
    have eH := interH area buf.area
    refine ⟨harea, ?_, ?_⟩
    · intro p q hp1 hp2 hq1 hq2 hnreg
      rw [hcells p q hp1 hp2 hq1 hq2]
      rw [if_neg]
      intro hc
      apply hnreg
      obtain ⟨hc1, hc2, hc3, hc4⟩ := hc
      exact ⟨hc3, by omega, hc1, by omega⟩
    · intro p q hp1 hp2 hq1 hq2
      have hb1 : buf.area.x ≤ p := by omega
      have hb2 : p < buf.area.x + buf.area.width := by omega
      have hb3 : buf.area.y ≤ q := by omega
      have hb4 : q < buf.area.y + buf.area.height := by omega
      rw [hcells p q hb1 hb2 hb3 hb4]
      rw [if_pos ⟨hq1, by omega, hp1, by omega⟩]

/-- A 2 by 1 child content buffer with two distinctive cells. -/
def c9Child : Buffer :=
  ⟨⟨0, 0, 2, 1⟩, [⟨"a", 1, 2, 3, false⟩, ⟨"b", 4, 5, 6, true⟩]⟩

/-- A scrollable holding that child, with no block and zero offsets. -/
def c9S : Scrollable Unit :=
  { Scrollable.new with child_buffer := c9Child, available_height := 1 }

/-- A 3 by 2 destination frame with distinctive prior cells. -/
def c9Dst : Buffer :=
  ⟨⟨0, 0, 3, 2⟩, [⟨"p", 7, 7, 7, false⟩, ⟨"q", 8, 8, 8, false⟩, ⟨"r", 9, 9, 9, false⟩,
    ⟨"s", 1, 1, 1, true⟩, ⟨"t", 2, 2, 2, false⟩, ⟨"u", 3, 3, 3, false⟩]⟩

/-- The composited frame: the two child cells are copied into row 0 keeping
the destination modifiers 7 and 8; every other cell keeps its prior value. -/
def c9Out : Buffer :=
  ⟨⟨0, 0, 3, 2⟩, [⟨"a", 1, 2, 7, false⟩, ⟨"b", 4, 5, 8, true⟩, ⟨"r", 9, 9, 9, false⟩,
    ⟨"s", 1, 1, 1, true⟩, ⟨"t", 2, 2, 2, false⟩, ⟨"u", 3, 3, 3, false⟩]⟩

/-- Witness for C9 at a concrete frame: the in-window cell (0, 0) takes the
source symbol, colors and skip flag with the destination's modifier, the
out-of-window cell (2, 1) keeps its prior value, and the area is unchanged. -/
theorem c9_witness :
    c9Out.cellAt 0 0 =
      ⟨(renderSrc c9S (Rect.intersection ⟨0, 0, 3, 2⟩ c9Dst.area) 0 0).symbol,
       (renderSrc c9S (Rect.intersection ⟨0, 0, 3, 2⟩ c9Dst.area) 0 0).fg,
       (renderSrc c9S (Rect.intersection ⟨0, 0, 3, 2⟩ c9Dst.area) 0 0).bg,
       (c9Dst.cellAt 0 0).modifier,
       (renderSrc c9S (Rect.intersection ⟨0, 0, 3, 2⟩ c9Dst.area) 0 0).skip⟩ ∧
    c9Out.cellAt 2 1 = c9Dst.cellAt 2 1 ∧
    c9Out.area = c9Dst.area :=
  have h := c9_render_copy_window innerUnit (fun _ _ b => b) c9S ⟨0, 0, 3, 2⟩ c9Dst c9Out
    rfl (by decide) (by decide) (by decide) (by decide) (by decide)
  ⟨h.2.2 0 0 (by decide) (by decide) (by decide) (by decide),
   h.2.1 2 1 (by decide) (by decide) (by decide) (by decide) (by decide),
   h.1⟩
